import Mathlib

/-!
# Visual Python: step-through visualiser

A shallow embedding of the lesson scripts (`levels/lvl3-area/lvl3script.js`,
`levels/lvl4-input/lvl4script.js`, `levels/lvl5 - 3+4/lvl5script.js`).

JavaScript strings are modelled as lists of characters.  Every character the
scripts compare against (quotes, comma, space, line feed, the operators, the
white space set of `trim`) lies in the basic multilingual plane, so scanning
code points agrees with scanning UTF-16 code units.
-/

namespace VisualPython

/-! ## JavaScript string primitives -/

/-- A JavaScript string. -/
abbrev Str := List Char

/-- Line feed, the separator of `split('\n')`. -/
def LF : Char := Char.ofNat 10

/-- The double quote character. -/
def DQ : Char := Char.ofNat 34

/-- The single quote character. -/
def SQ : Char := Char.ofNat 39

/-- WhiteSpace and LineTerminator of ECMAScript: what `trim` strips and what `\s` matches. -/
def isWhiteSpace (c : Char) : Bool :=
  c.toNat == 9 || c.toNat == 10 || c.toNat == 11 || c.toNat == 12 || c.toNat == 13 ||
  c.toNat == 32 || c.toNat == 160 || c.toNat == 5760 ||
  (decide (8192 ≤ c.toNat) && decide (c.toNat ≤ 8202)) ||
  c.toNat == 8232 || c.toNat == 8233 || c.toNat == 8239 || c.toNat == 8287 ||
  c.toNat == 12288 || c.toNat == 65279

/-- LineTerminator of ECMAScript: what `.` in a regular expression does not match. -/
def isLineTerminator (c : Char) : Bool :=
  c.toNat == 10 || c.toNat == 13 || c.toNat == 8232 || c.toNat == 8233

/-- The class `\w` of a regular expression without the unicode flag. -/
def isWordChar (c : Char) : Bool :=
  (decide (97 ≤ c.toNat) && decide (c.toNat ≤ 122)) ||
  (decide (65 ≤ c.toNat) && decide (c.toNat ≤ 90)) ||
  (decide (48 ≤ c.toNat) && decide (c.toNat ≤ 57)) || c.toNat == 95

/-- `String.prototype.trim`. -/
def trim (s : Str) : Str :=
  ((s.dropWhile isWhiteSpace).reverse.dropWhile isWhiteSpace).reverse

/-- Truthiness of a string: only the empty string is falsy. -/
def truthy (s : Str) : Bool := !s.isEmpty

/-- `String.prototype.split` with a one-character separator. -/
def split (sep : Char) : Str → List Str
  | [] => [[]]
  | c :: cs =>
    if c = sep then [] :: split sep cs
    else
      match split sep cs with
      | [] => [[c]]
      | l :: ls => (c :: l) :: ls

/-- `String.prototype.includes`: is `pat` a substring of `s`. -/
def includes (s pat : Str) : Bool :=
  pat.isPrefixOf s ||
    match s with
    | [] => false
    | _ :: cs => includes cs pat

/-- `String.prototype.startsWith`. -/
def startsWith (s pat : Str) : Bool := pat.isPrefixOf s

/-! ## Execution plan (Run handler, lines 133-145 of lvl3script.js) -/

/-- The `type` field of a plan step. -/
inductive StepType
  | print
  | calculation
  | assignment
  | input
  deriving DecidableEq, Repr

/-- One element of `executionPlan`. -/
structure PlanStep where
  lineNumber : Nat
  code : Str
  type : StepType
  deriving DecidableEq, Repr

/-- The array `lines` of the Run handler: `code.split('\n').filter(l => l.trim())`. -/
def sourceLines (code : Str) : List Str :=
  (split LF code).filter (fun l => truthy (trim l))

/-- `lines.map((line, idx) => ...)`, with the classifier as a parameter; `idx` counts from `start`. -/
def mapWithIndex (classify : Str → StepType) (start : Nat) : List Str → List PlanStep
  | [] => []
  | line :: rest =>
    { lineNumber := start, code := line, type := classify line } ::
      mapWithIndex classify (start + 1) rest

namespace Lvl3

/-- The `type` expression of the lvl3 Run handler (lines 143-144). -/
def stepType (line : Str) : StepType :=
  if includes line "print(".toList then StepType.print
  else if includes line "*".toList || includes line "+".toList ||
      includes line "-".toList || includes line "/".toList then StepType.calculation
  else StepType.assignment

/-- The plan built by the lvl3 Run handler from the editor text. -/
def buildPlan (code : Str) : List PlanStep :=
  mapWithIndex stepType 0 (sourceLines code)

end Lvl3

namespace Lvl4

/-- The `type` computation of the lvl4 Run handler (lines 183-189 of lvl4script.js). -/
def stepType (line : Str) : StepType :=
  if includes line "input(".toList then StepType.input
  else if includes line "print(".toList then StepType.print
  else StepType.assignment

/-- The plan built by the lvl4 Run handler. -/
def buildPlan (code : Str) : List PlanStep :=
  mapWithIndex stepType 0 (sourceLines code)

end Lvl4

namespace Lvl5

/-- The `type` computation of the lvl5 Run handler (lines 225-231 of lvl5script.js). -/
def stepType (line : Str) : StepType :=
  if includes line "input(".toList then StepType.input
  else if includes line "print(".toList then StepType.print
  else StepType.assignment

/-- The plan built by the lvl5 Run handler. -/
def buildPlan (code : Str) : List PlanStep :=
  mapWithIndex stepType 0 (sourceLines code)

end Lvl5

/-! ## The print-argument scanner (`parsePrintContent`, lines 526-562 of lvl3script.js) -/

/-- The `type` field of a part. -/
inductive PartType
  | string
  | variable
  deriving DecidableEq, Repr

/-- The `source` field of a part. -/
inductive PartSource
  | editor
  | memory
  deriving DecidableEq, Repr

/-- One element of the array `parts`; `varName` is absent on string parts. -/
structure Part where
  type : PartType
  value : Str
  varName : Option Str
  source : PartSource
  deriving DecidableEq, Repr

/-- The object `currentVariables`: own properties in insertion order, names unique. -/
abbrev Store := List (Str × Str)

/-- Property read `currentVariables[name]` (own properties only). -/
def Store.get (vars : Store) (name : Str) : Option Str :=
  (vars.find? (fun kv => kv.1 == name)).map Prod.snd

/-- The expression `currentVariables[varName] || varName`: an unbound name and a name bound to
the empty string both fall through to the name. -/
def lookupOr (vars : Store) (varName : Str) : Str :=
  match vars.get varName with
  | some v => if truthy v then v else varName
  | none => varName

/-- The object literal pushed for an unquoted token. -/
def variablePart (vars : Store) (varName : Str) : Part :=
  { type := PartType.variable, value := lookupOr vars varName, varName := some varName,
    source := PartSource.memory }

/-- The object literal pushed for a quoted literal. -/
def stringPart (current : Str) : Part :=
  { type := PartType.string, value := current, varName := none, source := PartSource.editor }

/-- The local variables of `parsePrintContent`; `quoteChar` starts as the empty string,
which equals no character, modelled as `none`. -/
structure Scan where
  parts : List Part
  current : Str
  inQuote : Bool
  quoteChar : Option Char
  deriving DecidableEq, Repr

/-- One iteration of the `for` loop of `parsePrintContent`. -/
def scanChar (vars : Store) (st : Scan) (char : Char) : Scan :=
  if (char = DQ ∨ char = SQ) ∧ st.inQuote = false then
    { st with inQuote := true, quoteChar := some char, current := [] }
  else if st.quoteChar = some char ∧ st.inQuote = true then
    { st with inQuote := false, parts := st.parts ++ [stringPart st.current], current := [] }
  else if char = ',' ∧ st.inQuote = false then
    if truthy (trim st.current) then
      { st with parts := st.parts ++ [variablePart vars (trim st.current)], current := [] }
    else st
  else if st.inQuote = true then
    { st with current := st.current ++ [char] }
  else if char ≠ ' ' then
    { st with current := st.current ++ [char] }
  else st

/-- The whole `for` loop. -/
def scanLoop (vars : Store) (st : Scan) (content : Str) : Scan :=
  content.foldl (scanChar vars) st

/-- The function `parsePrintContent(content)`, reading the global `currentVariables`. -/
def parsePrintContent (vars : Store) (content : Str) : List Part :=
  let st := scanLoop vars { parts := [], current := [], inQuote := false, quoteChar := none } content
  if truthy (trim st.current) then st.parts ++ [variablePart vars (trim st.current)]
  else st.parts

/-- The statements after the loop of `parsePrintContent` (lines 556-561): the pending token is
flushed and the parts returned. -/
def finishScan (vars : Store) (st : Scan) : List Part :=
  if truthy (trim st.current) then st.parts ++ [variablePart vars (trim st.current)]
  else st.parts

/-- A token with its space characters (U+0020) deleted. -/
def dropSpaces (tok : Str) : Str := tok.filter (fun c => c != ' ')

/-- The names of an argument list read as comma-delimited tokens, each with only its leading and
trailing white space removed; tokens that trim to nothing are left out. -/
def trimmedTokens (content : Str) : List Str :=
  ((split ',' content).map trim).filter truthy

/-- The names of an argument list read as comma-delimited tokens, each with its space characters
deleted and then trimmed; tokens that come out empty are left out. -/
def tokenNames (content : Str) : List Str :=
  ((split ',' content).map (fun tok => trim (dropSpaces tok))).filter truthy

/-- The names the scanner still has to push when `current` holds `cur`, the rest of the token
being read is `tok` and the tokens after it are given by the list: a token that trims to nothing
is not flushed at its comma and stays in `current`. -/
def pendingNames (cur : Str) (tok : Str) : List Str → List Str
  | [] =>
    if truthy (trim (cur ++ dropSpaces tok)) then [trim (cur ++ dropSpaces tok)] else []
  | next :: rest =>
    if truthy (trim (cur ++ dropSpaces tok)) then
      trim (cur ++ dropSpaces tok) :: pendingNames [] next rest
    else pendingNames (cur ++ dropSpaces tok) next rest

/-! ## Regular expressions of the animation functions

Each matcher tries every start position from the left, as `String.prototype.match` does.
The classes `\w` and `\s` are disjoint and neither contains `=` or an operator, so at a given
start position every greedy run is forced to be maximal; only `\s*(.+)` can give characters
back, which `matchAssignmentAt` accounts for. -/

/-- Does `/(\w+)\s*=\s*(.+)/` match at the start of `t`; the result is group 1. -/
def matchAssignmentAt (t : Str) : Option Str :=
  let g1 := t.takeWhile isWordChar
  if g1.isEmpty then none
  else
    match (t.dropWhile isWordChar).dropWhile isWhiteSpace with
    | c :: r =>
      if c = '=' then
        if (r.dropWhile isWhiteSpace).isEmpty = false ∨
            (r.takeWhile isWhiteSpace).any (fun d => !isLineTerminator d) = true then some g1
        else none
      else none
    | [] => none

/-- Group 1 of `step.code.match(/(\w+)\s*=\s*(.+)/)`, or `none` when the match is `null`. -/
def matchAssignment : Str → Option Str
  | [] => none
  | c :: cs =>
    match matchAssignmentAt (c :: cs) with
    | some g => some g
    | none => matchAssignment cs

/-- The operator character class of the calculation pattern: one of `*`, `+`, `-`, `/`. -/
def isOperator (c : Char) : Bool := c == '*' || c == '+' || c == '-' || c == '/'

/-- Does the calculation pattern `(\w+)\s*=\s*(\w+)\s*(op)\s*(\w+)` match at the start of `t`;
the result is the groups `resultVar`, `var1`, `operator`, `var2`. -/
def matchCalculationAt (t : Str) : Option (Str × Str × Char × Str) :=
  let g1 := t.takeWhile isWordChar
  if g1.isEmpty then none
  else
    match (t.dropWhile isWordChar).dropWhile isWhiteSpace with
    | c :: r =>
      if c = '=' then
        let r3 := r.dropWhile isWhiteSpace
        let g2 := r3.takeWhile isWordChar
        if g2.isEmpty then none
        else
          match (r3.dropWhile isWordChar).dropWhile isWhiteSpace with
          | op :: r5 =>
            if isOperator op then
              let g4 := (r5.dropWhile isWhiteSpace).takeWhile isWordChar
              if g4.isEmpty then none else some (g1, g2, op, g4)
            else none
          | [] => none
      else none
    | [] => none

/-- The groups of `step.code.match(...)` in `animateCalculation`, or `none` when it is `null`. -/
def matchCalculation : Str → Option (Str × Str × Char × Str)
  | [] => none
  | c :: cs =>
    match matchCalculationAt (c :: cs) with
    | some g => some g
    | none => matchCalculation cs

/-- Does `/print\((.*)\)/` match at the start of `t`; the result is group 1: the greedy `.*`
runs to the last `)` before the first line terminator. -/
def matchPrintAt (t : Str) : Option Str :=
  if "print(".toList.isPrefixOf t then
    match (((t.drop 6).takeWhile (fun d => !isLineTerminator d)).reverse).dropWhile
        (fun d => d != ')') with
    | _ :: revGroup => some revGroup.reverse
    | [] => none
  else none

/-- Group 1 of `step.code.match(/print\((.*)\)/)`, or `none` when the match is `null`. -/
def matchPrint : Str → Option Str
  | [] => none
  | c :: cs =>
    match matchPrintAt (c :: cs) with
    | some g => some g
    | none => matchPrint cs

/-! ## The embedded interpreter (black box) and the page state of lvl3 -/

/-- What the page can observe of the embedded interpreter. -/
structure Interp where
  /-- The entries of `pyodide.globals.toJs()`, each value already passed through `String(value)`. -/
  globals : List (Str × Str)
  /-- The result of `output_buffer.getvalue()`, or `none` when that call raises. -/
  stdout : Option Str
  /-- The rest of the interpreter state, which the page cannot observe. -/
  hidden : Nat
  deriving DecidableEq, Repr

/-- The behaviour of the interpreter, which the page does not control. -/
structure Executor where
  /-- The interpreter after `loadPyodide` and the bootstrap script, or `none` when loading fails. -/
  loadPyodide : Option Interp
  /-- The call `pyodide.runPythonAsync(text)`: the interpreter afterwards and the error raised, if any. -/
  runPython : Str → Interp → Interp × Option Str

/-- The `type` field of a history entry. -/
inductive EntryType
  | memory
  | output
  deriving DecidableEq, Repr

/-- One element of `animationHistory`; `element` is the handle of a DOM node, and `isNew` is
`false` where the pushed object has no such property. -/
structure HistoryEntry where
  type : EntryType
  element : Nat
  isNew : Bool
  deriving DecidableEq, Repr

/-- One `div.variable-box` of the memory bank, with id `box-` followed by `name`. -/
structure Box where
  handle : Nat
  name : Str
  deriving DecidableEq, Repr

/-- One `div.output-line` of the output pane. -/
structure OutputLine where
  handle : Nat
  text : Str
  deriving DecidableEq, Repr

namespace Lvl3

/-- The module-level variables of lvl3script.js and the parts of the page its handlers write. -/
structure State where
  pyodide : Option Interp
  currentStep : Int
  totalSteps : Int
  isRunning : Bool
  animationHistory : List HistoryEntry
  executionPlan : List PlanStep
  currentVariables : Store
  /-- The editor option `readOnly`. -/
  readOnly : Bool
  /-- The property `disabled` of the button `runBtn`. -/
  runBtnDisabled : Bool
  /-- The property `disabled` of the button `stepBtn`. -/
  stepBtnDisabled : Bool
  /-- The property `disabled` of the button `backBtn`. -/
  backBtnDisabled : Bool
  /-- The children of the element `memoryBank`. -/
  memoryBank : List Box
  /-- The children of the element `output` that are output lines. -/
  outputLines : List OutputLine
  /-- The handle the next created DOM node receives. -/
  nextHandle : Nat
  deriving DecidableEq, Repr

/-- The text passed to the interpreter by the Run handler (line 137): the source spliced between
triple quotes inside a call of `compile`. -/
def compileCall (code : Str) : Str :=
  "compile(".toList ++ [SQ, SQ, SQ] ++ code ++ [SQ, SQ, SQ] ++ ", ".toList ++ [SQ] ++
    "<string>".toList ++ [SQ] ++ ", ".toList ++ [SQ] ++ "exec".toList ++ [SQ] ++ ")".toList

/-- Assignment `obj[key] = value` on a plain object. -/
def storeSet (vars : Store) (key value : Str) : Store :=
  if vars.any (fun kv => kv.1 == key) then
    vars.map (fun kv => if kv.1 == key then (key, value) else kv)
  else vars ++ [(key, value)]

/-- The condition of line 170 of the Step handler. -/
def keepGlobal (key : Str) : Bool :=
  !startsWith key "_".toList && key != "output_buffer".toList && key != "sys".toList &&
    key != "io".toList

/-- Lines 167-173 of the Step handler: the store rebuilt from the interpreter globals. -/
def snapshot (globals : List (Str × Str)) : Store :=
  globals.foldl (fun acc kv => if keepGlobal kv.1 then storeSet acc kv.1 kv.2 else acc) []

/-- Line 182: `output.split('\n').filter(l => l.trim()).pop() || ''`. -/
def newOutput (output : Str) : Str :=
  match (sourceLines output).getLast? with
  | some l => l
  | none => []

/-- The lookup `document.getElementById` for the id `box-` followed by `name`: the first such box. -/
def findBox (bank : List Box) (name : Str) : Option Box :=
  bank.find? (fun b => b.name == name)

/-- The function `animateAssignment(step, variables)`: state after the animation has completed. -/
def animateAssignment (step : PlanStep) (s : State) : State :=
  match matchAssignment step.code with
  | none => s
  | some varName =>
    match findBox s.memoryBank varName with
    | some box =>
      { s with animationHistory := s.animationHistory ++ [⟨EntryType.memory, box.handle, true⟩] }
    | none =>
      { s with
        memoryBank := s.memoryBank ++ [⟨s.nextHandle, varName⟩]
        nextHandle := s.nextHandle + 1
        animationHistory := s.animationHistory ++ [⟨EntryType.memory, s.nextHandle, true⟩] }

/-- The function `animateCalculation(step, variables)`: state after the animation has completed. -/
def animateCalculation (step : PlanStep) (s : State) : State :=
  match matchCalculation step.code with
  | none => s
  | some (resultVar, var1, _, var2) =>
    if (findBox s.memoryBank var1).isSome && (findBox s.memoryBank var2).isSome then
      { s with
        memoryBank := s.memoryBank ++ [⟨s.nextHandle, resultVar⟩]
        nextHandle := s.nextHandle + 1
        animationHistory := s.animationHistory ++ [⟨EntryType.memory, s.nextHandle, true⟩] }
    else s

/-- The function `animatePrint(step, text)`: state after the animation has completed.  The parts
computed by `parsePrintContent` only position the sparks. -/
def animatePrint (step : PlanStep) (text : Str) (s : State) : State :=
  match matchPrint step.code with
  | none => s
  | some _ =>
    { s with
      outputLines := s.outputLines ++ [⟨s.nextHandle, text⟩]
      nextHandle := s.nextHandle + 1
      animationHistory := s.animationHistory ++ [⟨EntryType.output, s.nextHandle, false⟩] }

/-- The function `updateButtons()`. -/
def updateButtons (s : State) : State :=
  let s1 := { s with
    backBtnDisabled := decide (s.currentStep = 0)
    stepBtnDisabled := decide (s.currentStep ≥ s.totalSteps) }
  if s.currentStep ≥ s.totalSteps then
    { s1 with readOnly := false, runBtnDisabled := false, isRunning := false }
  else s1

/-- The function `reverseLastAnimation()`, with the removal done by the tween's `onComplete`. -/
def reverseLastAnimation (s : State) : State :=
  match s.animationHistory.getLast? with
  | none => s
  | some lastAction =>
    if lastAction.isNew then
      { s with
        animationHistory := s.animationHistory.dropLast
        memoryBank := s.memoryBank.filter (fun b => b.handle != lastAction.element)
        outputLines := s.outputLines.filter (fun l => l.handle != lastAction.element) }
    else { s with animationHistory := s.animationHistory.dropLast }

/-- The function `loadPyodideEnv()`: the value of `pyodide` afterwards. -/
def loadPyodideEnv (E : Executor) (pyodide : Option Interp) : Option Interp :=
  match pyodide with
  | some interp => some interp
  | none => E.loadPyodide

/-- The page effect of `generateErrorExplanation`: the output pane is replaced by the error text. -/
def generateErrorExplanation (s : State) : State :=
  { s with outputLines := [] }

/-- The Run handler (lines 114-155), for the editor text `code`. -/
def runBtnOnclick (E : Executor) (code : Str) (s : State) : State :=
  if s.isRunning then s
  else
    match loadPyodideEnv E s.pyodide with
    | none => s
    | some interp =>
      let s1 : State := { s with
        pyodide := some interp
        isRunning := true
        currentStep := 0
        animationHistory := []
        executionPlan := []
        currentVariables := []
        readOnly := true
        runBtnDisabled := true
        stepBtnDisabled := false
        outputLines := []
        memoryBank := [] }
      match E.runPython (compileCall code) interp with
      | (interp2, none) =>
        { s1 with
          pyodide := some interp2
          totalSteps := ((sourceLines code).length : Int)
          executionPlan := buildPlan code }
      | (interp2, some _) =>
        { generateErrorExplanation { s1 with pyodide := some interp2 } with
          isRunning := false
          readOnly := false
          runBtnDisabled := false }

/-- The dispatch on `step.type` of the Step handler (lines 177-184); the lvl3 plan builder never
produces the type `input`. -/
def playAnimation (step : PlanStep) (output : Str) (s : State) : State :=
  match step.type with
  | StepType.calculation => animateCalculation step s
  | StepType.assignment => animateAssignment step s
  | StepType.print => animatePrint step (newOutput output) s
  | StepType.input => s

/-- The conditions under which the animation function of a step runs to its
`animationHistory.push`: the guards before the push in `animateCalculation` (lines 274, 281),
`animateAssignment` (line 200) and `animatePrint` (line 492). -/
def animationPlays (step : PlanStep) (bank : List Box) : Bool :=
  match step.type with
  | StepType.calculation =>
    match matchCalculation step.code with
    | some (_, var1, _, var2) => (findBox bank var1).isSome && (findBox bank var2).isSome
    | none => false
  | StepType.assignment => (matchAssignment step.code).isSome
  | StepType.print => (matchPrint step.code).isSome
  | StepType.input => false

/-- Does the interpreter run the current step without raising: the line itself (line 165) and
the read of the output buffer (line 175). -/
def stepSucceeds (E : Executor) (s : State) : Bool :=
  match s.executionPlan[s.currentStep.toNat]?, s.pyodide with
  | some step, some interp =>
    (E.runPython step.code interp).2.isNone && (E.runPython step.code interp).1.stdout.isSome
  | _, _ => false

/-- Lines 188-190 of the Step handler: `currentStep++` followed by `updateButtons()`. -/
def advance (s : State) : State :=
  updateButtons { s with currentStep := s.currentStep + 1 }

/-- The `catch` block of the Step handler (lines 191-194). -/
def stepCatch (s : State) : State :=
  { generateErrorExplanation s with stepBtnDisabled := true }

/-- The Step handler (lines 158-195).  When `executionPlan[currentStep]` is `undefined` the read
of `step.lineNumber` throws before the `try` block and the handler ends there. -/
def stepBtnOnclick (E : Executor) (s : State) : State :=
  if s.currentStep ≥ s.totalSteps then s
  else if s.currentStep < 0 then s
  else
    match s.executionPlan[s.currentStep.toNat]? with
    | none => s
    | some step =>
      match s.pyodide with
      | none => stepCatch s
      | some interp =>
        match E.runPython step.code interp with
        | (interp2, some _) => stepCatch { s with pyodide := some interp2 }
        | (interp2, none) =>
          let s1 : State := { s with
            pyodide := some interp2
            currentVariables := snapshot interp2.globals }
          match interp2.stdout with
          | none => stepCatch s1
          | some output =>
            advance (playAnimation step output s1)

/-- The state after `n` Step commands in a row. -/
def afterSteps (E : Executor) (n : Nat) (s : State) : State :=
  (stepBtnOnclick E)^[n] s

/-- The Back handler (lines 719-727). -/
def backBtnOnclick (s : State) : State :=
  if s.currentStep > 0 then
    updateButtons (reverseLastAnimation { s with currentStep := s.currentStep - 1 })
  else s

/-- The state when the script has loaded: the initial values of the module-level variables, an
empty memory bank and output pane, and the interpreter either loaded by `window.onload` or not;
the `disabled` attributes of the buttons come from the page markup. -/
def State.initial (E : Executor) (loaded runDisabled stepDisabled backDisabled : Bool) : State :=
  { pyodide := if loaded then E.loadPyodide else none
    currentStep := 0
    totalSteps := 0
    isRunning := false
    animationHistory := []
    executionPlan := []
    currentVariables := []
    readOnly := false
    runBtnDisabled := runDisabled
    stepBtnDisabled := stepDisabled
    backBtnDisabled := backDisabled
    memoryBank := []
    outputLines := []
    nextHandle := 0 }

/-- A user command: a click whose handler runs to completion. -/
inductive Command
  | run (code : Str)
  | step
  | back
  | reset
  deriving DecidableEq, Repr

/-- The handler of a command; Reset reloads the page, which is `location.reload()`. -/
def handle (E : Executor) (init : State) (s : State) : Command → State
  | Command.run code => runBtnOnclick E code s
  | Command.step => stepBtnOnclick E s
  | Command.back => backBtnOnclick s
  | Command.reset => init

/-- The state after a sequence of commands. -/
def runCommands (E : Executor) (init : State) (s : State) (cmds : List Command) : State :=
  cmds.foldl (handle E init) s

/-- The states a session can be in: those some command sequence leads to from a freshly loaded
page. -/
def Reachable (E : Executor) (s : State) : Prop :=
  ∃ (loaded runDisabled stepDisabled backDisabled : Bool) (cmds : List Command),
    s = runCommands E (State.initial E loaded runDisabled stepDisabled backDisabled)
      (State.initial E loaded runDisabled stepDisabled backDisabled) cmds

end Lvl3

/-- The indices, in the source buffer, of the lines whose trimmed text is non-empty: position `i`
holds the original line index of the `i`-th non-blank line. -/
def nonBlankLineIndices (code : Str) : List Nat :=
  (((split LF code).enum).filter (fun p => truthy (trim p.2))).map Prod.fst

/-! ## Clicks: a disabled button fires no handler -/

namespace Lvl3

/-- A click on the Step button: the handler runs only when the button is not disabled. -/
def clickStep (E : Executor) (s : State) : State :=
  if s.stepBtnDisabled then s else stepBtnOnclick E s

/-- A click on the Back button: the handler runs only when the button is not disabled. -/
def clickBack (s : State) : State :=
  if s.backBtnDisabled then s else backBtnOnclick s

end Lvl3

namespace Lvl4

/-- Line 232 of lvl4script.js: `output.split('\n').filter(l => l.trim()).pop() || ''`. -/
def newOutput (output : Str) : Str :=
  match ((split LF output).filter (fun l => truthy (trim l))).getLast? with
  | some l => l
  | none => []

end Lvl4

/-! ## Explanation requesters -/

/-- The value of `data?.candidates?.[0]?.content?.parts?.[0]?.text` for a parsed body. -/
inductive Extracted
  /-- The chain ends in `undefined` or `null`. -/
  | missing
  /-- The chain ends in a string. -/
  | text (s : Str)
  /-- The chain ends in another JSON value, with its truthiness and its display text. -/
  | other (truthy : Bool) (shown : Str)
  deriving DecidableEq, Repr

/-- What the network does to one request. -/
inductive Transport
  /-- The promise of `fetch` rejects. -/
  | rejected
  /-- A response arrives (with the given `response.ok`) and `response.json()` rejects. -/
  | unreadable (ok : Bool)
  /-- A response arrives and its body parses; `x` is what the optional chain extracts. -/
  | body (ok : Bool) (x : Extracted)
  deriving DecidableEq, Repr

/-- The statements `await fetch(...)` and `await response.json()` followed by the optional
chain, as the lvl3 and lvl4 requesters run them (no test of `response.ok`): the value
extracted, or the exception thrown. -/
def fetchText : Transport → Except Str Extracted
  | Transport.rejected => Except.error "TypeError: Failed to fetch".toList
  | Transport.unreadable _ => Except.error "SyntaxError: Unexpected token".toList
  | Transport.body _ x => Except.ok x

/-- The operand `x || fallback` where the result is shown as text. -/
def orElse (x : Extracted) (fallback : Str) : Str :=
  match x with
  | Extracted.missing => fallback
  | Extracted.text s => if truthy s then s else fallback
  | Extracted.other t shown => if t then shown else fallback

/-- The decimal text of `step.lineNumber + 1` inside a template literal. -/
def lineLabel (step : PlanStep) : Str := (Nat.repr (step.lineNumber + 1)).toList

namespace Lvl3

/-- The template of line 684: the text shown when the body holds no explanation. -/
def executedMessage (step : PlanStep) : Str :=
  "Line ".toList ++ lineLabel step ++ " executed!".toList

/-- The template of line 686: the text shown by the `catch` block. -/
def fallbackMessage (step : PlanStep) : Str :=
  "Line ".toList ++ lineLabel step ++ ": ".toList ++ step.code ++ " - Executed!".toList

/-- The function `generateStepExplanation` (lines 676-688): the text passed to `showTeacher`,
or the exception that leaves the function. -/
def generateStepExplanation (step : PlanStep) (t : Transport) : Except Str Str :=
  match fetchText t with
  | Except.ok x => Except.ok (orElse x (executedMessage step))
  | Except.error _ => Except.ok (fallbackMessage step)

end Lvl3

namespace Lvl4

/-- The template of lines 598-599 of lvl4script.js. -/
def executedMessage (step : PlanStep) : Str :=
  "Line ".toList ++ lineLabel step ++ " executed successfully!".toList

/-- The fallback of an input step (lines 606-607): it names the last key of the store `variables` and its
value, and reads `undefined` for both when the store is empty. -/
def inputFallback (vars : Store) : Str :=
  match vars.getLast? with
  | some (varName, value) =>
    "Great! Python asked you for input and stored ".toList ++ [DQ] ++ value ++ [DQ] ++
      " in the ".toList ++ varName ++ " variable box!".toList
  | none =>
    "Great! Python asked you for input and stored ".toList ++ [DQ] ++ "undefined".toList ++
      [DQ] ++ " in the undefined variable box!".toList

/-- The fallback of a print step (line 609). -/
def printFallback : Str :=
  "Perfect! Python printed the value from memory to the output screen!".toList

/-- The fallback of any other step (line 611). -/
def otherFallback (step : PlanStep) : Str :=
  "Line ".toList ++ lineLabel step ++ ": ".toList ++ step.code ++
    " - Executed successfully!".toList

/-- The variable `fallbackMsg` of the `catch` block (lines 604-612). -/
def fallbackMsg (step : PlanStep) (vars : Store) : Str :=
  if step.type = StepType.input then inputFallback vars
  else if step.type = StepType.print then printFallback
  else otherFallback step

/-- The function `generateStepExplanation` of lvl4script.js (lines 588-616): the text passed to
`showTeacher`, or the exception that leaves the function. -/
def generateStepExplanation (step : PlanStep) (vars : Store) (t : Transport) :
    Except Str Str :=
  match fetchText t with
  | Except.ok x => Except.ok (orElse x (executedMessage step))
  | Except.error _ => Except.ok (fallbackMsg step vars)

end Lvl4

/-- The array returned by the `catch` block of `generateExplanation` (script.js, lines 161-165). -/
def fallbackExplanations : List Str :=
  ["Line 1 → Fallback: A secure connection error occurred, so this is a generic explanation.".toList,
   "Line 2 → Please ensure your backend proxy (server.js) is running in the terminal.".toList,
   "Line 3 → The actual API key is now safe on the server side, where it belongs!".toList]

/-- The match of the pattern that takes everything from an opening square bracket to a closing
one (script.js, line 149), greedy: from the first `[` to the last `]` after it. -/
def matchJsonArray (text : Str) : Option Str :=
  match text.dropWhile (fun c => c != '[') with
  | [] => none
  | open_ :: rest =>
    match (rest.reverse).dropWhile (fun c => c != ']') with
    | [] => none
    | close :: revInner => some (open_ :: (close :: revInner).reverse)

/-- The value `generateExplanation` returns: the array parsed by `JSON.parse`, or a list of
explanation lines. -/
inductive Explanation (J : Type)
  | parsed (j : J)
  | lines (ls : List Str)

/-- The line-splitting fallback of line 154:
`aiResponse.split('\n').filter(line => line.trim().length > 0)`. -/
def splitLines (aiResponse : Str) : List Str :=
  (split LF aiResponse).filter (fun line => decide ((trim line).length > 0))

/-- The body of the `try` block of `generateExplanation` (script.js, lines 123-156), with
`JSON.parse` as the parameter `parse` (`none` when it throws). -/
def explanationBody {J : Type} (parse : Str → Option J) : Transport → Except Str (Explanation J)
  | Transport.rejected => Except.error "TypeError: Failed to fetch".toList
  | Transport.unreadable ok =>
    if ok then Except.error "SyntaxError: Unexpected token".toList
    else Except.error "Proxy Error".toList
  | Transport.body ok x =>
    if ok then
      match x with
      | Extracted.missing => Except.error "API Response was empty or malformed.".toList
      | Extracted.text aiResponse =>
        if truthy aiResponse then
          match matchJsonArray aiResponse with
          | some jsonMatch =>
            match parse jsonMatch with
            | some j => Except.ok (Explanation.parsed j)
            | none => Except.error "SyntaxError: JSON.parse".toList
          | none => Except.ok (Explanation.lines (splitLines aiResponse))
        else Except.error "API Response was empty or malformed.".toList
      | Extracted.other t _ =>
        if t then Except.error "TypeError: aiResponse.match is not a function".toList
        else Except.error "API Response was empty or malformed.".toList
    else Except.error "Proxy Error".toList

/-- The function `generateExplanation(code, inputHistory)` of script.js (lines 121-167): its
return value, or the exception that leaves the function. -/
def generateExplanation {J : Type} (parse : Str → Option J) (t : Transport) :
    Except Str (Explanation J) :=
  match explanationBody parse t with
  | Except.ok r => Except.ok r
  | Except.error _ => Except.ok (Explanation.lines fallbackExplanations)

/-! ## The other copies of the print-argument scanner -/

/-- One iteration of the loop in the lvl2, lvl4 and lvl5 copies of `parsePrintContent`, whose
comma branch tests `current.trim() && !inQuote`. -/
def scanCharGuarded (vars : Store) (st : Scan) (char : Char) : Scan :=
  if (char = DQ ∨ char = SQ) ∧ st.inQuote = false then
    { st with inQuote := true, quoteChar := some char, current := [] }
  else if st.quoteChar = some char ∧ st.inQuote = true then
    { st with inQuote := false, parts := st.parts ++ [stringPart st.current], current := [] }
  else if char = ',' ∧ st.inQuote = false then
    if truthy (trim st.current) = true ∧ st.inQuote = false then
      { st with parts := st.parts ++ [variablePart vars (trim st.current)], current := [] }
    else st
  else if st.inQuote = true then
    { st with current := st.current ++ [char] }
  else if char ≠ ' ' then
    { st with current := st.current ++ [char] }
  else st

namespace Lvl2

/-- The function `parsePrintContent` of lvl2script.js (lines 336-386). -/
def parsePrintContent (vars : Store) (content : Str) : List Part :=
  let st := content.foldl (scanCharGuarded vars)
    { parts := [], current := [], inQuote := false, quoteChar := none }
  if truthy (trim st.current) then st.parts ++ [variablePart vars (trim st.current)]
  else st.parts

end Lvl2

namespace Lvl4

/-- The function `parsePrintContent` of lvl4script.js (lines 415-465). -/
def parsePrintContent (vars : Store) (content : Str) : List Part :=
  let st := content.foldl (scanCharGuarded vars)
    { parts := [], current := [], inQuote := false, quoteChar := none }
  if truthy (trim st.current) then st.parts ++ [variablePart vars (trim st.current)]
  else st.parts

end Lvl4

namespace Lvl5

/-- The function `parsePrintContent` of lvl5script.js (lines 517-567). -/
def parsePrintContent (vars : Store) (content : Str) : List Part :=
  let st := content.foldl (scanCharGuarded vars)
    { parts := [], current := [], inQuote := false, quoteChar := none }
  if truthy (trim st.current) then st.parts ++ [variablePart vars (trim st.current)]
  else st.parts

end Lvl5

/-! ## Chat endpoint of server.js -/

/-- One entry of the request field `history`: its role and the texts of its parts. -/
structure ChatItem where
  role : Str
  parts : List Str
  deriving DecidableEq, Repr

/-- One element of the array `messages` sent upstream. -/
structure Message where
  role : Str
  content : Str
  deriving DecidableEq, Repr

/-- The template literal `systemPrompt` (server.js, lines 167-172). -/
def systemPrompt (code output : Str) : Str :=
  "You are a helpful Python Tutor. \n".toList ++
  "        - Role: Help the user fix their code. \n".toList ++
  "        - Tone: Brief, encouraging, and mentor-like. \n".toList ++
  "        - Constraint: Max 2-3 short sentences per reply.\n".toList ++
  "        - Rules: If they ask about the ".toList ++ [SQ] ++ "spark".toList ++ [SQ] ++
  ", call it their ".toList ++ [SQ] ++ "code energy".toList ++ [SQ] ++ " or ".toList ++ [SQ] ++
  "magic".toList ++ [SQ] ++ ". \n".toList ++
  "        - Context: Code is [".toList ++ code ++ "], Output is [".toList ++ output ++
  "].".toList

/-- The call `xs.slice(-n)`: the elements from index `max (length - n) 0` on. -/
def sliceLast {α : Type} (n : Nat) (xs : List α) : List α :=
  xs.drop (xs.length - n)

/-- The object pushed for one history entry (lines 181-184); reading `.text` of a missing first
part throws. -/
def toMessage (item : ChatItem) : Except Str Message :=
  match item.parts with
  | [] => Except.error "TypeError: Cannot read properties of undefined".toList
  | text :: _ =>
    Except.ok { role := if item.role = "model".toList then "assistant".toList else "user".toList
                content := text }

/-- The `forEach` of lines 180-185: each entry is converted and pushed in turn. -/
def pushHistory (messages : List Message) : List ChatItem → Except Str (List Message)
  | [] => Except.ok messages
  | item :: rest =>
    match toMessage item with
    | Except.ok m => pushHistory (messages ++ [m]) rest
    | Except.error e => Except.error e

/-- The array `messages` the chat endpoint sends upstream (lines 174-187), or the exception
that takes the handler to its `catch` block before anything is sent. -/
def chatMessages (query code output : Str) (history : List ChatItem) :
    Except Str (List Message) :=
  match pushHistory [{ role := "system".toList, content := systemPrompt code output }]
      (sliceLast 4 history) with
  | Except.ok messages => Except.ok (messages ++ [{ role := "user".toList, content := query }])
  | Except.error e => Except.error e

/-! ## Editor restrictions of lvl3 -/

/-- The argument `change` of the `beforeChange` handler, as far as the handler reads it. -/
structure Change where
  origin : Str
  /-- The inserted text, one element per line. -/
  text : List Str
  fromLine : Nat
  toLine : Nat
  deriving DecidableEq, Repr

namespace Lvl3

/-- The `beforeChange` handler installed by `setupLineRestrictions` (lines 67-86): does it call
`change.cancel()`. -/
def beforeChange (change : Change) : Bool :=
  if (change.origin = "paste".toList ∨ change.origin = "drop".toList) ∧
      includes change.text.flatten [LF] = true then true
  else if change.origin = "+input".toList ∧ change.text.length > 1 then true
  else if (change.origin = "+delete".toList ∨ change.origin = "cut".toList) ∧
      change.fromLine ≠ change.toLine then true
  else false

end Lvl3

/-! ## Input steps of lvl4 -/

namespace Lvl4

/-- The module-level variables of lvl4script.js are those of lvl3script.js. -/
abbrev State := Lvl3.State

/-- Does `\s*\)` match at the start of `s`. -/
def closesCall (s : Str) : Bool :=
  match s.dropWhile isWhiteSpace with
  | c :: _ => c == ')'
  | [] => false

/-- Does the end of the input pattern, an optional quote, then `\s*\)`, match at the start of
`r`. -/
def promptTail (r : Str) : Bool :=
  (match r with
    | c :: rest => (c == DQ || c == SQ) && closesCall rest
    | [] => false) || closesCall r

/-- The greedy group `(.*)` of the input pattern at the start of the text: the longest run of
characters other than line terminators after which `promptTail` matches. -/
def longestPrompt : Str → Option Str
  | [] => none
  | c :: cs =>
    if isLineTerminator c then
      if promptTail (c :: cs) then some [] else none
    else
      match longestPrompt cs with
      | some g => some (c :: g)
      | none => if promptTail (c :: cs) then some [] else none

/-- The optional opening quote followed by the group: the quote is consumed first when there is
one, and left to the group when that fails. -/
def promptFrom (r : Str) : Option Str :=
  match r with
  | c :: cs =>
    if c = DQ ∨ c = SQ then
      match longestPrompt cs with
      | some g => some g
      | none => longestPrompt (c :: cs)
    else longestPrompt (c :: cs)
  | [] => longestPrompt []

/-- The `\s*` after `input\(`, greedy, giving white space back when the rest fails. -/
def promptAfterSpaces : Str → Option Str
  | [] => promptFrom []
  | c :: cs =>
    if isWhiteSpace c then
      match promptAfterSpaces cs with
      | some g => some g
      | none => promptFrom (c :: cs)
    else promptFrom (c :: cs)

/-- Does the pattern of `handleInputStatement` (line 251), a name, `=`, `input(`, an optional
quote, the group, an optional quote and `)`, match at the start of `t`; the result is the groups
`varName` and `rawPrompt`. -/
def matchInputAt (t : Str) : Option (Str × Str) :=
  let g1 := t.takeWhile isWordChar
  if g1.isEmpty then none
  else
    match (t.dropWhile isWordChar).dropWhile isWhiteSpace with
    | c :: r =>
      if c = '=' then
        if "input(".toList.isPrefixOf (r.dropWhile isWhiteSpace) then
          (promptAfterSpaces ((r.dropWhile isWhiteSpace).drop 6)).map (fun g => (g1, g))
        else none
      else none
    | [] => none

/-- The groups of `step.code.match(...)` in `handleInputStatement`, or `none` when the match is
`null`. -/
def matchInput : Str → Option (Str × Str)
  | [] => none
  | c :: cs =>
    match matchInputAt (c :: cs) with
    | some g => some g
    | none => matchInput cs

/-- The argument `promptText` passed to `showInteractiveInput` (line 255): `rawPrompt`, or the
default when it is empty; `none` when the pattern does not match and no input is asked for. -/
def promptText (code : Str) : Option Str :=
  (matchInput code).map (fun m => if truthy m.2 then m.2 else "Enter value:".toList)

/-- The function `animateInputToMemory(varName, value)` (lines 304-365): a new box is appended
to the memory bank and recorded in the history. -/
def animateInputToMemory (varName : Str) (s : State) : State :=
  { s with
    memoryBank := s.memoryBank ++ [⟨s.nextHandle, varName⟩]
    nextHandle := s.nextHandle + 1
    animationHistory := s.animationHistory ++ [⟨EntryType.memory, s.nextHandle, true⟩] }

/-- The function `handleInputStatement(step)` (lines 250-263), with the text the user submits as
`userInput`: the state afterwards, or the exception thrown. -/
def handleInputStatement (userInput : Str) (step : PlanStep) (s : State) : Except Str State :=
  match matchInput step.code with
  | none => Except.ok s
  | some (varName, _) =>
    match s.pyodide with
    | none => Except.error "TypeError: pyodide is null".toList
    | some interp =>
      Except.ok (animateInputToMemory varName
        { s with
          pyodide := some { interp with
            globals := Lvl3.storeSet interp.globals varName userInput }
          currentVariables := Lvl3.storeSet s.currentVariables varName userInput })

/-- The Run handler of lvl4script.js (lines 158-207): it builds the plan without a validation
call. -/
def runBtnOnclick (E : Executor) (code : Str) (s : State) : State :=
  if s.isRunning then s
  else
    match Lvl3.loadPyodideEnv E s.pyodide with
    | none => s
    | some interp =>
      { s with
        pyodide := some interp
        isRunning := true
        currentStep := 0
        animationHistory := []
        executionPlan := buildPlan code
        currentVariables := []
        readOnly := true
        runBtnDisabled := true
        stepBtnDisabled := false
        outputLines := []
        memoryBank := []
        totalSteps := ((sourceLines code).length : Int) }

/-- The Step handler of lvl4script.js (lines 210-247), with the text the user submits when asked
as `userInput`.  The snapshot loop, `animatePrint`, `updateButtons` and the `catch` block have
the same text as in lvl3script.js. -/
def stepBtnOnclick (E : Executor) (userInput : Str) (s : State) : State :=
  if s.currentStep ≥ s.totalSteps then s
  else if s.currentStep < 0 then s
  else
    match s.executionPlan[s.currentStep.toNat]? with
    | none => s
    | some step =>
      if step.type = StepType.input then
        match handleInputStatement userInput step s with
        | Except.ok s2 => Lvl3.advance s2
        | Except.error _ => Lvl3.stepCatch s
      else
        match s.pyodide with
        | none => Lvl3.stepCatch s
        | some interp =>
          match E.runPython step.code interp with
          | (interp2, some _) => Lvl3.stepCatch { s with pyodide := some interp2 }
          | (interp2, none) =>
            if step.type = StepType.print then
              match interp2.stdout with
              | none =>
                Lvl3.stepCatch { s with
                  pyodide := some interp2
                  currentVariables := Lvl3.snapshot interp2.globals }
              | some output =>
                Lvl3.advance (Lvl3.animatePrint step (newOutput output)
                  { s with
                    pyodide := some interp2
                    currentVariables := Lvl3.snapshot interp2.globals })
            else
              Lvl3.advance { s with
                pyodide := some interp2
                currentVariables := Lvl3.snapshot interp2.globals }

end Lvl4

/-! ## Steps in flight

The Step handler is an `async` function: between its start and its end it waits for the
animation and for the explanation, and the page handles other clicks meanwhile.  A Step is
split at its first long wait: `stepBegin` is the handler up to the read of the output buffer
(lines 159-175), `stepEnd` the animation and lines 186-190. -/

namespace Lvl3

/-- A Step whose handler has begun and not ended: the local constants `step` and `output`. -/
structure InFlight where
  step : PlanStep
  output : Str
  deriving DecidableEq, Repr

/-- The page with the Steps in flight, the oldest first. -/
structure Page where
  state : State
  inFlight : List InFlight
  deriving DecidableEq, Repr

/-- What can happen on the page. -/
inductive Event
  | runClick (code : Str)
  | stepBegin
  | stepEnd
  | backClick
  | reload
  deriving DecidableEq, Repr

/-- A click on the Run button: the handler runs only when the button is not disabled. -/
def clickRun (E : Executor) (code : Str) (s : State) : State :=
  if s.runBtnDisabled then s else runBtnOnclick E code s

/-- A click on Step, up to the first long wait of its handler. -/
def stepBegin (E : Executor) (p : Page) : Page :=
  if p.state.stepBtnDisabled then p
  else if p.state.currentStep ≥ p.state.totalSteps then p
  else if p.state.currentStep < 0 then p
  else
    match p.state.executionPlan[p.state.currentStep.toNat]? with
    | none => p
    | some step =>
      match p.state.pyodide with
      | none => { p with state := stepCatch p.state }
      | some interp =>
        match E.runPython step.code interp with
        | (interp2, some _) =>
          { p with state := stepCatch { p.state with pyodide := some interp2 } }
        | (interp2, none) =>
          match interp2.stdout with
          | none =>
            { p with state := stepCatch { p.state with
                pyodide := some interp2
                currentVariables := snapshot interp2.globals } }
          | some output =>
            { state := { p.state with
                pyodide := some interp2
                currentVariables := snapshot interp2.globals }
              inFlight := p.inFlight ++ [⟨step, output⟩] }

/-- The end of the oldest Step in flight: its animation, then `currentStep++` and
`updateButtons()`. -/
def stepEnd (p : Page) : Page :=
  match p.inFlight with
  | [] => p
  | f :: rest => { state := advance (playAnimation f.step f.output p.state), inFlight := rest }

/-- The page after one event; `init` is the freshly loaded page. -/
def pageEvent (E : Executor) (init : State) (p : Page) : Event → Page
  | Event.runClick code => { p with state := clickRun E code p.state }
  | Event.stepBegin => stepBegin E p
  | Event.stepEnd => stepEnd p
  | Event.backClick => { p with state := clickBack p.state }
  | Event.reload => { state := init, inFlight := [] }

/-- The page after a sequence of events. -/
def pageEvents (E : Executor) (init : State) (p : Page) (events : List Event) : Page :=
  events.foldl (pageEvent E init) p

/-- A user command as clicks on enabled or disabled buttons, every handler running to its end
before the next click. -/
def click (E : Executor) (init : State) (s : State) : Command → State
  | Command.run code => clickRun E code s
  | Command.step => clickStep E s
  | Command.back => clickBack s
  | Command.reset => init

/-- The state after a sequence of clicks. -/
def clicks (E : Executor) (init : State) (s : State) (cmds : List Command) : State :=
  cmds.foldl (click E init) s

/-- The events of a command issued by a user who waits for each Step to end. -/
def sequential : Command → List Event
  | Command.run code => [Event.runClick code]
  | Command.step => [Event.stepBegin, Event.stepEnd]
  | Command.back => [Event.backClick]
  | Command.reset => [Event.reload]

end Lvl3

/-! ## Concrete interpreters used to evaluate the handlers -/

/-- The interpreter right after the bootstrap script of `loadPyodideEnv`. -/
def bootInterp : Interp :=
  { globals := [("sys".toList, "<module sys>".toList), ("io".toList, "<module io>".toList),
      ("output_buffer".toList, "<_io.StringIO object>".toList)]
    stdout := some []
    hidden := 0 }

/-- An interpreter that accepts every text and binds nothing. -/
def acceptAll : Executor :=
  { loadPyodide := some bootInterp
    runPython := fun _ interp => (interp, none) }

/-- An interpreter that raises on the text `bad` and accepts every other text. -/
def failOn (bad : Str) : Executor :=
  { loadPyodide := some bootInterp
    runPython := fun text interp =>
      if text = bad then (interp, some "NameError".toList) else (interp, none) }

/-- The lesson source of lvl3 (line 35 of lvl3script.js). -/
def lessonSource : Str :=
  "length = 10\nbreadth = 20\narea = length * breadth\nprint(area)".toList

/-- A freshly loaded lvl3 page with the interpreter ready and all buttons enabled. -/
def freshPage (E : Executor) : Lvl3.State := Lvl3.State.initial E true false false false

/-- The session Run, Step, Back on the lesson source. -/
def stepBackSession : Lvl3.State :=
  Lvl3.runCommands acceptAll (freshPage acceptAll) (freshPage acceptAll)
    [Lvl3.Command.run lessonSource, Lvl3.Command.step, Lvl3.Command.back]

/-- The session Run, Step on the lesson source, stopped before its second line, which raises. -/
def secondLineRaises : Lvl3.State :=
  Lvl3.runCommands (failOn "breadth = 20".toList) (freshPage (failOn "breadth = 20".toList))
    (freshPage (failOn "breadth = 20".toList)) [Lvl3.Command.run lessonSource, Lvl3.Command.step]

/-- The session Run, Step on the lesson source. -/
def oneStepSession : Lvl3.State :=
  Lvl3.runCommands acceptAll (freshPage acceptAll) (freshPage acceptAll)
    [Lvl3.Command.run lessonSource, Lvl3.Command.step]

/-- The lesson source with `10` edited to `-10` on its first line. -/
def minusTenSource : Str :=
  "length = -10\nbreadth = 20\narea = length * breadth\nprint(area)".toList

/-- The session Run, Step on `minusTenSource`. -/
def minusTenSession : Lvl3.State :=
  Lvl3.runCommands acceptAll (freshPage acceptAll) (freshPage acceptAll)
    [Lvl3.Command.run minusTenSource, Lvl3.Command.step]

/-- A source of four blank lines. -/
def blankSource : Str := [LF, LF, LF]

/-- The state after Run on `blankSource`. -/
def blankRun : Lvl3.State := Lvl3.runBtnOnclick acceptAll blankSource (freshPage acceptAll)

/-- An interpreter that raises on the text `bad`, accepts every other text, and counts in its
hidden state the texts it has been asked to run. -/
def countingFailOn (bad : Str) : Executor :=
  { loadPyodide := some bootInterp
    runPython := fun text interp =>
      if text = bad then ({ interp with hidden := interp.hidden + 1 }, some "NameError".toList)
      else ({ interp with hidden := interp.hidden + 1 }, none) }

/-- The lesson source with a misspelt name on its second line: it compiles, and the second line
raises a `NameError` when run. -/
def typoSource : Str :=
  "length = 10\nbreadth = lenght\narea = length * breadth\nprint(area)".toList

/-- The interpreter used with `typoSource`. -/
def typoPython : Executor := countingFailOn "breadth = lenght".toList

/-- The session Run, Step, Step on `typoSource`: the second Step has failed. -/
def typoFailed : Lvl3.State :=
  Lvl3.clickStep typoPython (Lvl3.clickStep typoPython
    (Lvl3.runBtnOnclick typoPython typoSource (freshPage typoPython)))

/-- The lesson source with its first line cut short, which does not compile. -/
def brokenSource : Str :=
  "length = 10 +\nbreadth = 20\narea = length * breadth\nprint(area)".toList

/-- The interpreter used with `brokenSource`: it rejects the compile call of that source. -/
def brokenPython : Executor := failOn (Lvl3.compileCall brokenSource)

/-- The session Run and four Steps on the lesson source, then Run on `brokenSource`. -/
def staleTotalSession : Lvl3.State :=
  Lvl3.runCommands brokenPython (freshPage brokenPython) (freshPage brokenPython)
    [Lvl3.Command.run lessonSource, Lvl3.Command.step, Lvl3.Command.step, Lvl3.Command.step,
      Lvl3.Command.step, Lvl3.Command.run brokenSource]

/-- The session Run and four Steps on the lesson source: a completed run. -/
def completedSession : Lvl3.State :=
  Lvl3.runCommands acceptAll (freshPage acceptAll) (freshPage acceptAll)
    [Lvl3.Command.run lessonSource, Lvl3.Command.step, Lvl3.Command.step, Lvl3.Command.step,
      Lvl3.Command.step]

/-- The interpreter after the bootstrap script, with the dunder names every Python module
namespace holds. -/
def lessonBoot : Interp :=
  { globals := [("__name__".toList, "__main__".toList), ("__doc__".toList, "None".toList),
      ("__builtins__".toList, "<module builtins>".toList),
      ("sys".toList, "<module sys>".toList), ("io".toList, "<module io>".toList),
      ("output_buffer".toList, "<_io.StringIO object>".toList)]
    stdout := some []
    hidden := 0 }

/-- An interpreter that runs the four lines of the lesson source as Python does and accepts
every other text without effect. -/
def lessonPython : Executor :=
  { loadPyodide := some lessonBoot
    runPython := fun text interp =>
      if text = "length = 10".toList then
        ({ interp with globals := Lvl3.storeSet interp.globals "length".toList "10".toList }, none)
      else if text = "breadth = 20".toList then
        ({ interp with globals := Lvl3.storeSet interp.globals "breadth".toList "20".toList },
          none)
      else if text = "area = length * breadth".toList then
        if (interp.globals.lookup "length".toList = some "10".toList) &&
            (interp.globals.lookup "breadth".toList = some "20".toList) then
          ({ interp with globals := Lvl3.storeSet interp.globals "area".toList "200".toList },
            none)
        else (interp, some "NameError".toList)
      else if text = "print(area)".toList then
        if interp.globals.lookup "area".toList = some "200".toList then
          ({ interp with stdout := interp.stdout.map (fun out => out ++ "200\n".toList) }, none)
        else (interp, some "NameError".toList)
      else (interp, none) }

/-- The state after Run on the lesson source with `lessonPython`. -/
def lessonRun : Lvl3.State :=
  Lvl3.runBtnOnclick lessonPython lessonSource (freshPage lessonPython)

/-- A model text whose two lines each hold a bracketed step number. -/
def bracketedText : Str := "Step [1]: assign x\nStep [2]: print x".toList

/-- A stand-in for `JSON.parse` that knows one array text and throws on every other text. -/
def knownArrayParse (text : Str) : Option (List Str) :=
  if text = "[".toList ++ [DQ] ++ "a".toList ++ [DQ] ++ "]".toList then some ["a".toList]
  else none

/-- The state after Run and four Steps on the lesson source with `lessonPython`. -/
def lessonDone : Lvl3.State := Lvl3.afterSteps lessonPython 4 lessonRun

/-- An interpreter that runs the lesson lines as `lessonPython` does and also the two edited
lines used below: `print()` writes an empty line, `width = 10` binds `width`. -/
def sessionPython : Executor :=
  { loadPyodide := some lessonBoot
    runPython := fun text interp =>
      if text = "print()".toList then
        ({ interp with stdout := interp.stdout.map (fun out => out ++ [LF]) }, none)
      else if text = "width = 10".toList then
        ({ interp with globals := Lvl3.storeSet interp.globals "width".toList "10".toList }, none)
      else lessonPython.runPython text interp }

/-- The lesson source with the argument of its print deleted. -/
def emptyPrintSource : Str :=
  "length = 10\nbreadth = 20\narea = length * breadth\nprint()".toList

/-- The lesson source with its first line edited to bind `width`. -/
def widthSource : Str :=
  "width = 10\nbreadth = 20\narea = length * breadth\nprint(area)".toList

/-- A completed run of the lesson source followed by a completed run of `emptyPrintSource`. -/
def secondRunPrint : Lvl3.State :=
  Lvl3.runCommands sessionPython (freshPage sessionPython) (freshPage sessionPython)
    [Lvl3.Command.run lessonSource, Lvl3.Command.step, Lvl3.Command.step, Lvl3.Command.step,
      Lvl3.Command.step, Lvl3.Command.run emptyPrintSource, Lvl3.Command.step,
      Lvl3.Command.step, Lvl3.Command.step, Lvl3.Command.step]

/-- A completed run of the lesson source followed by Run and one Step on `widthSource`. -/
def secondRunStore : Lvl3.State :=
  Lvl3.runCommands sessionPython (freshPage sessionPython) (freshPage sessionPython)
    [Lvl3.Command.run lessonSource, Lvl3.Command.step, Lvl3.Command.step, Lvl3.Command.step,
      Lvl3.Command.step, Lvl3.Command.run widthSource, Lvl3.Command.step]

/-- The lesson source with its second line edited to assign `length` again. -/
def reassignSource : Str :=
  "length = 10\nlength = 20\narea = length * 2\nprint(area)".toList

/-- The session Run, Step, Step on `reassignSource`. -/
def reassigned : Lvl3.State :=
  Lvl3.runCommands acceptAll (freshPage acceptAll) (freshPage acceptAll)
    [Lvl3.Command.run reassignSource, Lvl3.Command.step, Lvl3.Command.step]

/-- A chat history of three exchanges, as the client builds it: a user entry and a model entry
per exchange, one part each. -/
def sampleHistory : List ChatItem :=
  [⟨"user".toList, ["q1".toList]⟩, ⟨"model".toList, ["a1".toList]⟩,
   ⟨"user".toList, ["q2".toList]⟩, ⟨"model".toList, ["a2".toList]⟩,
   ⟨"user".toList, ["q3".toList]⟩, ⟨"model".toList, ["a3".toList]⟩]

/-- The lesson source of lvl4 (line 40 of lvl4script.js). -/
def inputLesson : Str :=
  "name = input(".toList ++ [DQ] ++ "Enter your name: ".toList ++ [DQ] ++ ")\nprint(name)".toList

/-- The lvl4 lesson with its input wrapped in `int( )`. -/
def intInputSource : Str :=
  "name = int(input(".toList ++ [DQ] ++ "Enter your age: ".toList ++ [DQ] ++
    "))\nprint(name)".toList

/-- The first line of `intInputSource`. -/
def intInputLine : Str :=
  "name = int(input(".toList ++ [DQ] ++ "Enter your age: ".toList ++ [DQ] ++ "))".toList

/-- The state after Run on `intInputSource` in lvl4. -/
def intInputRun : Lvl4.State := Lvl4.runBtnOnclick acceptAll intInputSource (freshPage acceptAll)

/-- The state after Run on the lvl4 lesson. -/
def inputLessonRun : Lvl4.State := Lvl4.runBtnOnclick acceptAll inputLesson (freshPage acceptAll)

/-- An interpreter that accepts the lesson lines and counts the texts it has been asked to
run. -/
def countingPython : Executor := countingFailOn "raise".toList

/-- The page after Run and three Steps on the lesson source, each Step ended before the next
click: one step of the plan is left. -/
def lastStepPage : Lvl3.Page :=
  Lvl3.pageEvents countingPython (freshPage countingPython)
    ⟨freshPage countingPython, []⟩
    [Lvl3.Event.runClick lessonSource, Lvl3.Event.stepBegin, Lvl3.Event.stepEnd,
      Lvl3.Event.stepBegin, Lvl3.Event.stepEnd, Lvl3.Event.stepBegin, Lvl3.Event.stepEnd]

/-- Two clicks on Step before the first Step has ended, then both ends. -/
def doubleClickPage : Lvl3.Page :=
  Lvl3.pageEvents countingPython (freshPage countingPython) lastStepPage
    [Lvl3.Event.stepBegin, Lvl3.Event.stepBegin, Lvl3.Event.stepEnd, Lvl3.Event.stepEnd]

/-! ## Sanity checks of the embedding -/

example : parsePrintContent [] "\"Sum is\", total".toList =
    [stringPart "Sum is".toList, variablePart [] "total".toList] := by decide

example : (parsePrintContent [] "\"a,b\", x".toList).length = 2 := by decide

example : parsePrintContent [] "\"a\", \tx".toList =
    [stringPart "a".toList, variablePart [] "x".toList] := by decide

example : parsePrintContent [] "\"a\", \t".toList = [stringPart "a".toList] := by decide

example : matchAssignment "length = 10".toList = some "length".toList := by decide
example : matchAssignment "pass".toList = none := by decide
example : matchAssignment "x = ".toList = some "x".toList := by decide
example : matchAssignment "x =".toList = none := by decide
example : matchCalculation "area = length * breadth".toList =
    some ("area".toList, "length".toList, '*', "breadth".toList) := by decide
example : matchCalculation "length = -10".toList = none := by decide
example : matchCalculation "x = 5 + 3".toList =
    some ("x".toList, "5".toList, '+', "3".toList) := by decide
example : matchPrint "print(area)".toList = some "area".toList := by decide
example : matchPrint "print((a), b) # )".toList = some "(a), b) # ".toList := by decide
example : matchPrint "print(".toList = none := by decide


example : Lvl3.buildPlan "a = 1\n\n  \nb = a + 2\nprint(b)".toList =
    [⟨0, "a = 1".toList, .assignment⟩, ⟨1, "b = a + 2".toList, .calculation⟩,
     ⟨2, "print(b)".toList, .print⟩] := by decide

/-! ## Facts about the string primitives -/

theorem includes_iff_substring (s pat : Str) : includes s pat = true ↔ pat <:+: s := by
  induction s with
  | nil =>
    unfold includes
    cases pat <;> simp [List.isPrefixOf]
  | cons c cs ih =>
    unfold includes
    rw [Bool.or_eq_true, List.infix_cons_iff, ih, List.isPrefixOf_iff_prefix]

theorem includes_singleton_iff (s : Str) (c : Char) : includes s [c] = true ↔ c ∈ s := by
  rw [includes_iff_substring]
  constructor
  · rintro ⟨a, b, rfl⟩
    simp
  · intro h
    obtain ⟨a, b, rfl⟩ := List.append_of_mem h
    exact ⟨a, b, by simp⟩

theorem mapWithIndex_code (classify : Str → StepType) (start : Nat) (lines : List Str) :
    (mapWithIndex classify start lines).map PlanStep.code = lines := by
  induction lines generalizing start with
  | nil => rfl
  | cons l ls ih => simp [mapWithIndex, ih]

theorem mapWithIndex_length (classify : Str → StepType) (start : Nat) (lines : List Str) :
    (mapWithIndex classify start lines).length = lines.length := by
  induction lines generalizing start with
  | nil => rfl
  | cons l ls ih => simp [mapWithIndex, ih]

theorem mapWithIndex_getElem? (classify : Str → StepType) (start : Nat) (lines : List Str)
    (i : Nat) :
    (mapWithIndex classify start lines)[i]? =
      (lines[i]?).map (fun l => { lineNumber := start + i, code := l, type := classify l }) := by
  induction lines generalizing start i with
  | nil => simp [mapWithIndex]
  | cons l ls ih =>
    cases i with
    | zero => simp [mapWithIndex]
    | succ j =>
      simp only [mapWithIndex, List.getElem?_cons_succ, ih]
      congr 1
      funext l
      congr 1
      omega

theorem truthy_iff (s : Str) : truthy s = true ↔ s ≠ [] := by
  cases s <;> simp [truthy]

theorem sourceLines_eq (code : Str) :
    sourceLines code = (split LF code).filter (fun l => decide (trim l ≠ [])) := by
  unfold sourceLines
  congr 1
  funext l
  cases h : trim l <;> simp [truthy]

/-- The state the Run handler leaves when the interpreter is available and validation passes. -/
theorem Lvl3.runBtnOnclick_valid (E : Executor) (code : Str) (s : Lvl3.State) (interp : Interp)
    (hrun : s.isRunning = false) (hpy : Lvl3.loadPyodideEnv E s.pyodide = some interp)
    (hvalid : (E.runPython (Lvl3.compileCall code) interp).2 = none) :
    Lvl3.runBtnOnclick E code s =
      { s with
        pyodide := some (E.runPython (Lvl3.compileCall code) interp).1
        isRunning := true
        currentStep := 0
        animationHistory := []
        executionPlan := Lvl3.buildPlan code
        currentVariables := []
        readOnly := true
        runBtnDisabled := true
        stepBtnDisabled := false
        outputLines := []
        memoryBank := []
        totalSteps := ((sourceLines code).length : Int) } := by
  unfold Lvl3.runBtnOnclick
  rw [hrun, hpy]
  rcases hr : E.runPython (Lvl3.compileCall code) interp with ⟨i2, e⟩
  rw [hr] at hvalid
  simp only at hvalid
  subst hvalid
  simp [hr]

/-! ## Execution plan builder -/

/-- C1: when the lvl3 Run handler runs with the interpreter available and validation passes, the
`code` fields of the built plan are exactly the lines of the source (split at line feeds) whose
trimmed text is non-empty, in source order and unmodified, and both the plan length and
`totalSteps` equal the number of such lines. -/
theorem plan_code_fields_are_nonblank_lines (E : Executor) (code : Str) (s : Lvl3.State)
    (interp : Interp) (hrun : s.isRunning = false)
    (hpy : Lvl3.loadPyodideEnv E s.pyodide = some interp)
    (hvalid : (E.runPython (Lvl3.compileCall code) interp).2 = none) :
    (Lvl3.runBtnOnclick E code s).executionPlan.map PlanStep.code =
        (split LF code).filter (fun l => decide (trim l ≠ [])) ∧
      (Lvl3.runBtnOnclick E code s).executionPlan.length =
        (split LF code).countP (fun l => decide (trim l ≠ [])) ∧
      (Lvl3.runBtnOnclick E code s).totalSteps =
        (((split LF code).countP (fun l => decide (trim l ≠ [])) : Nat) : Int) := by
  rw [Lvl3.runBtnOnclick_valid E code s interp hrun hpy hvalid]
  simp only [Lvl3.buildPlan, mapWithIndex_code, mapWithIndex_length, List.countP_eq_length_filter,
    sourceLines_eq, and_self]

/-- Witness of C1: the lesson source with one line blanked, run on a fresh page. -/
theorem plan_code_fields_are_nonblank_lines_witness :
    (Lvl3.runBtnOnclick acceptAll "length = 10\n\narea = length * 2\nprint(area)".toList
        (freshPage acceptAll)).executionPlan.map PlanStep.code =
        (split LF "length = 10\n\narea = length * 2\nprint(area)".toList).filter
          (fun l => decide (trim l ≠ [])) ∧
      (Lvl3.runBtnOnclick acceptAll "length = 10\n\narea = length * 2\nprint(area)".toList
        (freshPage acceptAll)).executionPlan.length =
        (split LF "length = 10\n\narea = length * 2\nprint(area)".toList).countP
          (fun l => decide (trim l ≠ [])) ∧
      (Lvl3.runBtnOnclick acceptAll "length = 10\n\narea = length * 2\nprint(area)".toList
        (freshPage acceptAll)).totalSteps =
        (((split LF "length = 10\n\narea = length * 2\nprint(area)".toList).countP
          (fun l => decide (trim l ≠ [])) : Nat) : Int) :=
  plan_code_fields_are_nonblank_lines acceptAll _ (freshPage acceptAll) bootInterp rfl rfl rfl

/-- The `lineNumber` of a plan step is its position in the plan, that is, among the non-blank
lines. -/
theorem Lvl3.buildPlan_lineNumber (code : Str) (i : Nat) (step : PlanStep)
    (h : (Lvl3.buildPlan code)[i]? = some step) : step.lineNumber = i := by
  unfold Lvl3.buildPlan at h
  rw [mapWithIndex_getElem?] at h
  cases hl : (sourceLines code)[i]? with
  | none => simp [hl] at h
  | some l =>
    simp only [hl, Option.map_some', Option.some.injEq] at h
    subst h
    simp

/-- C2, the code at the failing input: for the lesson source with its second line blanked, the
plan built by Run numbers its steps 0, 1, 2, while the non-blank lines sit at the original
indices 0, 2, 3; step 1 holds the text of source line 2, and source line 1, which its
`lineNumber` names, is the blank line. -/
theorem plan_lineNumber_is_renumbered :
    (Lvl3.runBtnOnclick acceptAll "length = 10\n\narea = length * 2\nprint(area)".toList
        (freshPage acceptAll)).executionPlan.map PlanStep.lineNumber = [0, 1, 2] ∧
      nonBlankLineIndices "length = 10\n\narea = length * 2\nprint(area)".toList = [0, 2, 3] ∧
      ((Lvl3.runBtnOnclick acceptAll "length = 10\n\narea = length * 2\nprint(area)".toList
        (freshPage acceptAll)).executionPlan[1]?).map PlanStep.code =
          some "area = length * 2".toList ∧
      (split LF "length = 10\n\narea = length * 2\nprint(area)".toList)[1]? = some [] ∧
      (split LF "length = 10\n\narea = length * 2\nprint(area)".toList)[2]? =
        some "area = length * 2".toList := by
  decide

/-! ## Line classifiers -/

/-- C4: the lvl3 step type of a line is `print` if the line contains the substring `print(`,
otherwise `calculation` if it contains one of the characters `*`, `+`, `-`, `/`, otherwise
`assignment`; `x = 5` is an assignment, `area = l * w` a calculation and `print(x)` a print. -/
theorem lvl3_stepType_policy (line : Str) :
    Lvl3.stepType line =
        (if "print(".toList <:+: line then StepType.print
         else if ∃ c ∈ line, c = '*' ∨ c = '+' ∨ c = '-' ∨ c = '/' then StepType.calculation
         else StepType.assignment) ∧
      Lvl3.stepType "x = 5".toList = StepType.assignment ∧
      Lvl3.stepType "area = l * w".toList = StepType.calculation ∧
      Lvl3.stepType "print(x)".toList = StepType.print := by
  refine ⟨?_, by decide, by decide, by decide⟩
  unfold Lvl3.stepType
  by_cases hp : "print(".toList <:+: line
  · rw [if_pos ((includes_iff_substring _ _).2 hp), if_pos hp]
  · rw [if_neg (fun h => hp ((includes_iff_substring _ _).1 h)), if_neg hp]
    by_cases hop : ∃ c ∈ line, c = '*' ∨ c = '+' ∨ c = '-' ∨ c = '/'
    · rw [if_pos hop, if_pos]
      obtain ⟨c, hc, h⟩ := hop
      simp only [Bool.or_eq_true]
      rcases h with h | h | h | h <;> subst h
      · exact Or.inl (Or.inl (Or.inl ((includes_singleton_iff _ _).2 hc)))
      · exact Or.inl (Or.inl (Or.inr ((includes_singleton_iff _ _).2 hc)))
      · exact Or.inl (Or.inr ((includes_singleton_iff _ _).2 hc))
      · exact Or.inr ((includes_singleton_iff _ _).2 hc)
    · rw [if_neg hop, if_neg]
      intro h
      apply hop
      simp only [Bool.or_eq_true] at h
      rcases h with ((h | h) | h) | h
      · exact ⟨'*', (includes_singleton_iff _ _).1 h, Or.inl rfl⟩
      · exact ⟨'+', (includes_singleton_iff _ _).1 h, Or.inr (Or.inl rfl)⟩
      · exact ⟨'-', (includes_singleton_iff _ _).1 h, Or.inr (Or.inr (Or.inl rfl))⟩
      · exact ⟨'/', (includes_singleton_iff _ _).1 h, Or.inr (Or.inr (Or.inr rfl))⟩

/-- C5: in lvl4 and in lvl5 the step type of a line is `input` if the line contains `input(`
(also when it contains `print(` as well), otherwise `print` if it contains `print(`, otherwise
`assignment`; `name = input("q: ")` is an input and `print(x)` a print. -/
theorem lvl4_stepType_policy (line : Str) :
    Lvl4.stepType line =
        (if "input(".toList <:+: line then StepType.input
         else if "print(".toList <:+: line then StepType.print
         else StepType.assignment) ∧
      Lvl5.stepType line = Lvl4.stepType line ∧
      ("input(".toList <:+: line ∧ "print(".toList <:+: line →
        Lvl4.stepType line = StepType.input ∧ Lvl5.stepType line = StepType.input) ∧
      Lvl4.stepType "name = input(\"q: \")".toList = StepType.input ∧
      Lvl5.stepType "name = input(\"q: \")".toList = StepType.input ∧
      Lvl4.stepType "print(x)".toList = StepType.print ∧
      Lvl5.stepType "print(x)".toList = StepType.print := by
  have key : Lvl4.stepType line =
      (if "input(".toList <:+: line then StepType.input
       else if "print(".toList <:+: line then StepType.print
       else StepType.assignment) := by
    unfold Lvl4.stepType
    by_cases hi : "input(".toList <:+: line
    · rw [if_pos ((includes_iff_substring _ _).2 hi), if_pos hi]
    · rw [if_neg (fun h => hi ((includes_iff_substring _ _).1 h)), if_neg hi]
      by_cases hp : "print(".toList <:+: line
      · rw [if_pos ((includes_iff_substring _ _).2 hp), if_pos hp]
      · rw [if_neg (fun h => hp ((includes_iff_substring _ _).1 h)), if_neg hp]
  have same : Lvl5.stepType line = Lvl4.stepType line := rfl
  refine ⟨key, same, ?_, by decide, by decide, by decide, by decide⟩
  rintro ⟨hi, _⟩
  rw [same, key, if_pos hi]
  exact ⟨rfl, rfl⟩

/-- Witness of C5: a line that contains both `input(` and `print(` is an input step. -/
theorem lvl4_stepType_policy_witness :
    ("input(".toList <:+: "print(input(x))".toList ∧
        "print(".toList <:+: "print(input(x))".toList) ∧
      Lvl4.stepType "print(input(x))".toList = StepType.input ∧
      Lvl5.stepType "print(input(x))".toList = StepType.input :=
  ⟨by decide, (lvl4_stepType_policy "print(input(x))".toList).2.2.1 (by decide)⟩

/-! ## Print-argument scanner -/

theorem scanLoop_append (vars : Store) (st : Scan) (a b : Str) :
    scanLoop vars st (a ++ b) = scanLoop vars (scanLoop vars st a) b := by
  simp [scanLoop, List.foldl_append]

theorem scanLoop_cons (vars : Store) (st : Scan) (c : Char) (b : Str) :
    scanLoop vars st (c :: b) = scanLoop vars (scanChar vars st c) b := rfl

/-- Inside a literal opened by `q`, every character other than `q` is appended to `current`. -/
theorem scanLoop_inQuote (vars : Store) (q : Char) (s : Str) (st : Scan)
    (hq : st.inQuote = true) (hc : st.quoteChar = some q) (hs : q ∉ s) :
    scanLoop vars st s = { st with current := st.current ++ s } := by
  induction s generalizing st with
  | nil => cases st; simp [scanLoop]
  | cons c cs ih =>
    have hne : q ≠ c := fun h => hs (h ▸ List.mem_cons_self _ _)
    have hstep : scanChar vars st c = { st with current := st.current ++ [c] } := by
      simp [scanChar, hq, hc, hne]
    rw [scanLoop_cons, hstep,
      ih { st with current := st.current ++ [c] } hq hc (fun h => hs (List.mem_cons_of_mem _ h))]
    simp

/-- Outside a literal, every character other than a space, a comma and the two quotes is
appended to `current`. -/
theorem scanLoop_unquoted (vars : Store) (v : Str) (st : Scan) (hq : st.inQuote = false)
    (hv : ∀ c ∈ v, c ≠ ' ' ∧ c ≠ ',' ∧ c ≠ DQ ∧ c ≠ SQ) :
    scanLoop vars st v = { st with current := st.current ++ v } := by
  induction v generalizing st with
  | nil => cases st; simp [scanLoop]
  | cons c cs ih =>
    obtain ⟨h1, h2, h3, h4⟩ := hv c (List.mem_cons_self _ _)
    have hstep : scanChar vars st c = { st with current := st.current ++ [c] } := by
      simp [scanChar, hq, h1, h2, h3, h4]
    rw [scanLoop_cons, hstep,
      ih { st with current := st.current ++ [c] } hq
        (fun d hd => hv d (List.mem_cons_of_mem _ hd))]
    simp

/-- The parts of a quoted literal followed by a comma, a space and an unquoted token: the
literal, then the trimmed token when trimming leaves anything. -/
theorem parsePrintContent_literal_then_token (vars : Store) (q : Char) (s v : Str)
    (hq : q = DQ ∨ q = SQ) (hs : q ∉ s)
    (hv : ∀ c ∈ v, c ≠ ' ' ∧ c ≠ ',' ∧ c ≠ DQ ∧ c ≠ SQ) :
    parsePrintContent vars ([q] ++ s ++ [q] ++ ", ".toList ++ v) =
      if truthy (trim v) then [stringPart s, variablePart vars (trim v)] else [stringPart s] := by
  have hcomma : q ≠ ',' := by rcases hq with h | h <;> subst h <;> decide
  have hspace : q ≠ ' ' := by rcases hq with h | h <;> subst h <;> decide
  have h1 : scanChar vars { parts := [], current := [], inQuote := false, quoteChar := none } q =
      { parts := [], current := [], inQuote := true, quoteChar := some q } := by
    simp [scanChar, hq]
  have h2 : scanChar vars { parts := [], current := [] ++ s, inQuote := true, quoteChar := some q }
      q = { parts := [stringPart s], current := [], inQuote := false, quoteChar := some q } := by
    rcases hq with h | h <;> subst h <;> simp [scanChar, DQ, SQ]
  have h3 : scanChar vars
      { parts := [stringPart s], current := [], inQuote := false, quoteChar := some q } ',' =
      { parts := [stringPart s], current := [], inQuote := false, quoteChar := some q } := by
    have e1 : ¬ ((',' = DQ ∨ ',' = SQ)) := by decide
    simp [scanChar, e1, trim, truthy]
  have h4 : scanChar vars
      { parts := [stringPart s], current := [], inQuote := false, quoteChar := some q } ' ' =
      { parts := [stringPart s], current := [], inQuote := false, quoteChar := some q } := by
    have e1 : ¬ ((' ' = DQ ∨ ' ' = SQ)) := by decide
    simp [scanChar, e1]
  have hloop : scanLoop vars { parts := [], current := [], inQuote := false, quoteChar := none }
      ([q] ++ s ++ [q] ++ ", ".toList ++ v) =
      { parts := [stringPart s], current := v, inQuote := false, quoteChar := some q } := by
    have e : ([q] ++ s ++ [q] ++ ", ".toList ++ v) = q :: (s ++ (q :: ',' :: ' ' :: v)) := by
      simp
    rw [e, scanLoop_cons, h1, scanLoop_append, scanLoop_inQuote vars q s _ rfl rfl hs,
      scanLoop_cons, h2, scanLoop_cons, h3, scanLoop_cons, h4, scanLoop_unquoted vars v _ rfl hv]
    simp
  unfold parsePrintContent
  rw [hloop]
  simp

/-- C3, counterexample: with `q` the double quote and `s = a`, the token made of one tab
character is non-empty and contains no space, comma or quote, yet the scanner returns one part
only; and for the token made of a tab and `x` the second part is named `x`, not the token. -/
theorem parsePrintContent_tab_token :
    (['\t'] : Str) ≠ [] ∧ (∀ c ∈ (['\t'] : Str), c ≠ ' ' ∧ c ≠ ',' ∧ c ≠ DQ ∧ c ≠ SQ) ∧
      DQ ∉ "a".toList ∧
      parsePrintContent [] ([DQ] ++ "a".toList ++ [DQ] ++ ", ".toList ++ ['\t']) =
        [stringPart "a".toList] ∧
      (∀ c ∈ (['\t', 'x'] : Str), c ≠ ' ' ∧ c ≠ ',' ∧ c ≠ DQ ∧ c ≠ SQ) ∧
      parsePrintContent [] ([DQ] ++ "a".toList ++ [DQ] ++ ", ".toList ++ ['\t', 'x']) =
        [stringPart "a".toList, variablePart [] "x".toList] ∧
      (variablePart [] "x".toList).varName ≠ some ['\t', 'x'] := by
  decide

/-- C3, amended: for every quote character `q`, every literal text `s` that does not contain `q`
and every token `v` that is non-empty, contains no space, comma or quote and neither begins nor
ends with a white-space character (so that `trim` leaves it unchanged), the scanner applied to
`q s q`, a comma, a space and `v` returns exactly the string part with value `s` followed by the
variable part named `v`; `"Sum is", total` yields the string `Sum is` and the variable `total`,
and `"a,b", x` yields exactly two parts. -/
theorem parsePrintContent_literal_then_name (vars : Store) (q : Char) (s v : Str)
    (hq : q = DQ ∨ q = SQ) (hs : q ∉ s) (hne : v ≠ [])
    (hv : ∀ c ∈ v, c ≠ ' ' ∧ c ≠ ',' ∧ c ≠ DQ ∧ c ≠ SQ) (htrim : trim v = v) :
    parsePrintContent vars ([q] ++ s ++ [q] ++ ", ".toList ++ v) =
        [stringPart s, variablePart vars v] ∧
      (stringPart s).type = PartType.string ∧ (stringPart s).value = s ∧
      (variablePart vars v).type = PartType.variable ∧ (variablePart vars v).varName = some v ∧
      parsePrintContent vars ([DQ] ++ "Sum is".toList ++ [DQ] ++ ", total".toList) =
        [stringPart "Sum is".toList, variablePart vars "total".toList] ∧
      (parsePrintContent vars ([DQ] ++ "a,b".toList ++ [DQ] ++ ", x".toList)).length = 2 := by
  have hmain := parsePrintContent_literal_then_token vars q s v hq hs hv
  rw [htrim, if_pos ((truthy_iff v).2 hne)] at hmain
  refine ⟨hmain, rfl, rfl, rfl, rfl, ?_, ?_⟩
  · have h := parsePrintContent_literal_then_token vars DQ "Sum is".toList "total".toList
      (Or.inl rfl) (by decide) (by decide)
    have ht : trim "total".toList = "total".toList := by decide
    rw [ht, if_pos (by decide)] at h
    exact h
  · have h := parsePrintContent_literal_then_token vars DQ "a,b".toList "x".toList
      (Or.inl rfl) (by decide) (by decide)
    have ht : trim "x".toList = "x".toList := by decide
    rw [ht, if_pos (by decide)] at h
    have e : ([DQ] ++ "a,b".toList ++ [DQ] ++ ", x".toList) =
        ([DQ] ++ "a,b".toList ++ [DQ] ++ ", ".toList ++ "x".toList) := by decide
    rw [e, h]
    rfl

/-- Witness of the amended C3: a single-quoted literal holding a comma, a space and a double
quote, followed by the name `total`. -/
theorem parsePrintContent_literal_then_name_witness :
    parsePrintContent [("total".toList, "30".toList)]
        ([SQ] ++ ['a', ',', ' ', DQ] ++ [SQ] ++ ", ".toList ++ "total".toList) =
      [stringPart ['a', ',', ' ', DQ], variablePart [("total".toList, "30".toList)] "total".toList] :=
  (parsePrintContent_literal_then_name [("total".toList, "30".toList)] SQ ['a', ',', ' ', DQ]
    "total".toList (Or.inr rfl) (by decide) (by decide) (by decide) (by decide)).1

/-! ## Step controller of lvl3: what each handler leaves alone -/

namespace Lvl3

theorem updateButtons_frame (s : State) :
    (updateButtons s).currentStep = s.currentStep ∧
      (updateButtons s).totalSteps = s.totalSteps ∧
      (updateButtons s).executionPlan = s.executionPlan ∧
      (updateButtons s).animationHistory = s.animationHistory ∧
      (updateButtons s).currentVariables = s.currentVariables ∧
      (updateButtons s).pyodide = s.pyodide ∧
      (updateButtons s).memoryBank = s.memoryBank ∧
      (updateButtons s).nextHandle = s.nextHandle := by
  unfold updateButtons
  split <;> simp

theorem updateButtons_complete (s : State) (h : s.totalSteps ≤ s.currentStep) :
    (updateButtons s).isRunning = false ∧ (updateButtons s).readOnly = false ∧
      (updateButtons s).runBtnDisabled = false ∧ (updateButtons s).stepBtnDisabled = true := by
  unfold updateButtons
  simp [h]

theorem updateButtons_running (s : State) (h : s.currentStep < s.totalSteps) :
    (updateButtons s).isRunning = s.isRunning ∧ (updateButtons s).readOnly = s.readOnly ∧
      (updateButtons s).runBtnDisabled = s.runBtnDisabled ∧
      (updateButtons s).stepBtnDisabled = false := by
  unfold updateButtons
  simp [not_le.mpr h]

theorem advance_frame (s : State) :
    (advance s).currentStep = s.currentStep + 1 ∧
      (advance s).totalSteps = s.totalSteps ∧
      (advance s).executionPlan = s.executionPlan ∧
      (advance s).animationHistory = s.animationHistory ∧
      (advance s).currentVariables = s.currentVariables ∧
      (advance s).pyodide = s.pyodide ∧
      (advance s).memoryBank = s.memoryBank ∧
      (advance s).nextHandle = s.nextHandle := by
  unfold advance updateButtons
  split <;> simp

theorem playAnimation_frame (step : PlanStep) (output : Str) (s : State) :
    (playAnimation step output s).currentStep = s.currentStep ∧
      (playAnimation step output s).totalSteps = s.totalSteps ∧
      (playAnimation step output s).executionPlan = s.executionPlan ∧
      (playAnimation step output s).currentVariables = s.currentVariables ∧
      (playAnimation step output s).pyodide = s.pyodide ∧
      (playAnimation step output s).isRunning = s.isRunning ∧
      (playAnimation step output s).readOnly = s.readOnly ∧
      (playAnimation step output s).runBtnDisabled = s.runBtnDisabled := by
  unfold playAnimation animateCalculation animateAssignment animatePrint
  repeat' split
  all_goals simp

theorem playAnimation_history (step : PlanStep) (output : Str) (s : State) :
    (playAnimation step output s).animationHistory = s.animationHistory ∨
      ∃ e, (playAnimation step output s).animationHistory = s.animationHistory ++ [e] := by
  unfold playAnimation animateCalculation animateAssignment animatePrint
  repeat' split
  all_goals simp

theorem playAnimation_history_length (step : PlanStep) (output : Str) (s : State) :
    (playAnimation step output s).animationHistory.length =
      s.animationHistory.length + (if animationPlays step s.memoryBank then 1 else 0) := by
  unfold playAnimation animationPlays
  cases step.type with
  | calculation =>
    simp only [animateCalculation]
    cases matchCalculation step.code with
    | none => simp
    | some g =>
      obtain ⟨r, v1, op, v2⟩ := g
      simp only
      split <;> simp_all
  | assignment =>
    simp only [animateAssignment]
    cases matchAssignment step.code with
    | none => simp
    | some g =>
      simp only
      split <;> simp
  | print =>
    simp only [animatePrint]
    cases matchPrint step.code with
    | none => simp
    | some g => simp
  | input => simp

theorem reverseLastAnimation_frame (s : State) :
    (reverseLastAnimation s).currentStep = s.currentStep ∧
      (reverseLastAnimation s).totalSteps = s.totalSteps ∧
      (reverseLastAnimation s).executionPlan = s.executionPlan ∧
      (reverseLastAnimation s).currentVariables = s.currentVariables ∧
      (reverseLastAnimation s).pyodide = s.pyodide ∧
      (reverseLastAnimation s).animationHistory = s.animationHistory.dropLast := by
  unfold reverseLastAnimation
  split
  · rename_i h
    simp [List.getLast?_eq_none_iff.mp h]
  · split <;> simp

theorem stepCatch_frame (s : State) :
    (stepCatch s).currentStep = s.currentStep ∧ (stepCatch s).totalSteps = s.totalSteps ∧
      (stepCatch s).executionPlan = s.executionPlan ∧
      (stepCatch s).animationHistory = s.animationHistory ∧
      (stepCatch s).currentVariables = s.currentVariables ∧
      (stepCatch s).pyodide = s.pyodide ∧ (stepCatch s).memoryBank = s.memoryBank ∧
      (stepCatch s).nextHandle = s.nextHandle ∧ (stepCatch s).stepBtnDisabled = true := by
  simp [stepCatch, generateErrorExplanation]

/-- The Step handler either leaves the counter and the history alone, or passes the guard,
advances the counter by one and appends at most one history entry; it never touches `totalSteps`
or the plan. -/
theorem stepBtnOnclick_cases (E : Executor) (s : State) :
    (stepBtnOnclick E s).totalSteps = s.totalSteps ∧
      (stepBtnOnclick E s).executionPlan = s.executionPlan ∧
      (((stepBtnOnclick E s).currentStep = s.currentStep ∧
          (stepBtnOnclick E s).animationHistory = s.animationHistory) ∨
        ((stepBtnOnclick E s).currentStep = s.currentStep + 1 ∧
          0 ≤ s.currentStep ∧ s.currentStep < s.totalSteps ∧
          ((stepBtnOnclick E s).animationHistory = s.animationHistory ∨
            ∃ e, (stepBtnOnclick E s).animationHistory = s.animationHistory ++ [e]))) := by
  unfold stepBtnOnclick
  split
  · simp
  · rename_i hge
    split
    · simp
    · rename_i hneg
      split
      · simp
      · rename_i step hstep
        split
        · simp [stepCatch, generateErrorExplanation]
        · rename_i interp hpy
          rcases hr : E.runPython step.code interp with ⟨i2, e⟩
          cases e with
          | some msg => simp [stepCatch, generateErrorExplanation]
          | none =>
            simp only
            cases hout : i2.stdout with
            | none => simp [stepCatch, generateErrorExplanation]
            | some output =>
              simp only
              have hu := advance_frame (playAnimation step output
                { s with pyodide := some i2, currentVariables := snapshot i2.globals })
              have hf := playAnimation_frame step output
                { s with pyodide := some i2, currentVariables := snapshot i2.globals }
              have hh := playAnimation_history step output
                { s with pyodide := some i2, currentVariables := snapshot i2.globals }
              refine ⟨?_, ?_, Or.inr ⟨?_, by omega, by omega, ?_⟩⟩
              · rw [hu.2.1]; exact hf.2.1
              · rw [hu.2.2.1]; exact hf.2.2.1
              · rw [hu.1, hf.1]
              · rw [hu.2.2.2.1]; exact hh

theorem runBtnOnclick_cases (E : Executor) (code : Str) (s : State) :
    runBtnOnclick E code s = s ∨
      ((runBtnOnclick E code s).currentStep = 0 ∧
        (runBtnOnclick E code s).animationHistory = [] ∧
        ((runBtnOnclick E code s).totalSteps = s.totalSteps ∨
          (runBtnOnclick E code s).totalSteps = ((sourceLines code).length : Int))) := by
  unfold runBtnOnclick
  split
  · exact Or.inl rfl
  · split
    · exact Or.inl rfl
    · rename_i interp hpy
      rcases hr : E.runPython (compileCall code) interp with ⟨i2, e⟩
      cases e with
      | none => exact Or.inr (by simp)
      | some msg => exact Or.inr (by simp [generateErrorExplanation])

theorem backBtnOnclick_pos (s : State) (h : 0 < s.currentStep) :
    backBtnOnclick s = updateButtons (reverseLastAnimation { s with currentStep := s.currentStep - 1 }) := by
  unfold backBtnOnclick
  rw [if_pos h]

theorem backBtnOnclick_nonpos (s : State) (h : s.currentStep ≤ 0) : backBtnOnclick s = s := by
  unfold backBtnOnclick
  rw [if_neg (not_lt.mpr h)]

theorem backBtnOnclick_frame (s : State) (h : 0 < s.currentStep) :
    (backBtnOnclick s).currentStep = s.currentStep - 1 ∧
      (backBtnOnclick s).animationHistory = s.animationHistory.dropLast ∧
      (backBtnOnclick s).currentVariables = s.currentVariables ∧
      (backBtnOnclick s).executionPlan = s.executionPlan ∧
      (backBtnOnclick s).totalSteps = s.totalSteps ∧
      (backBtnOnclick s).pyodide = s.pyodide := by
  rw [backBtnOnclick_pos s h]
  have hu := updateButtons_frame (reverseLastAnimation { s with currentStep := s.currentStep - 1 })
  have hr := reverseLastAnimation_frame { s with currentStep := s.currentStep - 1 }
  refine ⟨?_, ?_, ?_, ?_, ?_, ?_⟩
  · rw [hu.1, hr.1]
  · rw [hu.2.2.2.1, hr.2.2.2.2.2]
  · rw [hu.2.2.2.2.1, hr.2.2.2.1]
  · rw [hu.2.2.1, hr.2.2.1]
  · rw [hu.2.1, hr.2.1]
  · rw [hu.2.2.2.2.2.1, hr.2.2.2.2.1]

/-- A property that holds on the fresh page and is kept by every handler holds after every
command sequence. -/
theorem runCommands_induction (E : Executor) (init : State) (P : State → Prop) (hinit : P init)
    (hrun : ∀ code s, P s → P (runBtnOnclick E code s))
    (hstep : ∀ s, P s → P (stepBtnOnclick E s))
    (hback : ∀ s, P s → P (backBtnOnclick s)) (cmds : List Command) (s : State) (hs : P s) :
    P (runCommands E init s cmds) := by
  induction cmds generalizing s with
  | nil => exact hs
  | cons c cs ih =>
    apply ih
    cases c with
    | run code => exact hrun code s hs
    | step => exact hstep s hs
    | back => exact hback s hs
    | reset => exact hinit

theorem Reachable.induction (E : Executor) (P : State → Prop)
    (hinit : ∀ a b c d, P (State.initial E a b c d))
    (hrun : ∀ code s, P s → P (runBtnOnclick E code s))
    (hstep : ∀ s, P s → P (stepBtnOnclick E s))
    (hback : ∀ s, P s → P (backBtnOnclick s)) (s : State) (h : Reachable E s) : P s := by
  obtain ⟨a, b, c, d, cmds, rfl⟩ := h
  exact runCommands_induction E _ P (hinit a b c d) hrun hstep hback cmds _ (hinit a b c d)

theorem currentStep_range (E : Executor) (s : State) (h : Reachable E s) :
    0 ≤ s.currentStep ∧ s.currentStep ≤ s.totalSteps := by
  refine Reachable.induction E (fun s => 0 ≤ s.currentStep ∧ s.currentStep ≤ s.totalSteps)
    ?_ ?_ ?_ ?_ s h
  · intro a b c d
    simp [State.initial]
  · intro code s hs
    rcases runBtnOnclick_cases E code s with h | ⟨h1, _, h3 | h3⟩
    · rw [h]; exact hs
    · rw [h1, h3]; exact ⟨le_refl _, by omega⟩
    · rw [h1, h3]; exact ⟨le_refl _, by omega⟩
  · intro s hs
    obtain ⟨ht, _, h | h⟩ := stepBtnOnclick_cases E s
    · rw [h.1, ht]; exact hs
    · rw [h.1, ht]; omega
  · intro s hs
    by_cases hpos : 0 < s.currentStep
    · have hf := backBtnOnclick_frame s hpos
      rw [hf.1, hf.2.2.2.2.1]; omega
    · rw [backBtnOnclick_nonpos s (not_lt.mp hpos)]; exact hs

theorem advance_complete (s : State) (h : s.totalSteps ≤ s.currentStep + 1) :
    (advance s).isRunning = false ∧ (advance s).readOnly = false ∧
      (advance s).runBtnDisabled = false ∧ (advance s).stepBtnDisabled = true := by
  unfold advance
  exact updateButtons_complete _ h

/-- On a step the interpreter runs without raising, the Step handler stores the snapshot, plays
the animation of the step and advances. -/
theorem stepBtnOnclick_success_eq (E : Executor) (s : State) (step : PlanStep)
    (h0 : 0 ≤ s.currentStep) (hlt : s.currentStep < s.totalSteps)
    (hstep : s.executionPlan[s.currentStep.toNat]? = some step)
    (hok : stepSucceeds E s = true) :
    ∃ i2 output, stepBtnOnclick E s = advance (playAnimation step output
      { s with pyodide := some i2, currentVariables := snapshot i2.globals }) := by
  unfold stepSucceeds at hok
  cases hpy : s.pyodide with
  | none => simp [hstep, hpy] at hok
  | some interp =>
    rcases hr : E.runPython step.code interp with ⟨i2, e⟩
    simp only [hstep, hpy, hr, Bool.and_eq_true, Option.isNone_iff_eq_none,
      Option.isSome_iff_exists] at hok
    obtain ⟨he, output, hout⟩ := hok
    subst he
    refine ⟨i2, output, ?_⟩
    unfold stepBtnOnclick
    rw [if_neg (not_le.mpr hlt), if_neg (not_lt.mpr h0)]
    simp only [hstep, hpy, hr, hout]

/-- A Step the interpreter runs without raising appends one history entry when the animation of
the step plays and none otherwise. -/
theorem stepBtnOnclick_history_length (E : Executor) (s : State) (step : PlanStep)
    (h0 : 0 ≤ s.currentStep) (hlt : s.currentStep < s.totalSteps)
    (hstep : s.executionPlan[s.currentStep.toNat]? = some step)
    (hok : stepSucceeds E s = true) :
    (stepBtnOnclick E s).animationHistory.length =
      s.animationHistory.length + (if animationPlays step s.memoryBank then 1 else 0) := by
  obtain ⟨i2, output, heq⟩ := stepBtnOnclick_success_eq E s step h0 hlt hstep hok
  rw [heq, (advance_frame _).2.2.2.1, playAnimation_history_length]

/-- The Step handler on a step the interpreter runs without raising. -/
theorem stepBtnOnclick_success (E : Executor) (s : State) (h0 : 0 ≤ s.currentStep)
    (hlt : s.currentStep < s.totalSteps) (hok : stepSucceeds E s = true) :
    (stepBtnOnclick E s).currentStep = s.currentStep + 1 ∧
      (stepBtnOnclick E s).totalSteps = s.totalSteps ∧
      (stepBtnOnclick E s).executionPlan = s.executionPlan ∧
      (∃ interp, (stepBtnOnclick E s).pyodide = some interp ∧
        (stepBtnOnclick E s).currentVariables = snapshot interp.globals) ∧
      s.animationHistory <+: (stepBtnOnclick E s).animationHistory ∧
      (s.totalSteps ≤ s.currentStep + 1 →
        (stepBtnOnclick E s).isRunning = false ∧ (stepBtnOnclick E s).readOnly = false ∧
        (stepBtnOnclick E s).runBtnDisabled = false) := by
  unfold stepSucceeds at hok
  cases hstep : s.executionPlan[s.currentStep.toNat]? with
  | none => simp [hstep] at hok
  | some step =>
    cases hpy : s.pyodide with
    | none => simp [hstep, hpy] at hok
    | some interp =>
      rcases hr : E.runPython step.code interp with ⟨i2, e⟩
      simp only [hstep, hpy, hr, Bool.and_eq_true, Option.isNone_iff_eq_none,
        Option.isSome_iff_exists] at hok
      obtain ⟨he, output, hout⟩ := hok
      subst he
      have heq : stepBtnOnclick E s = advance (playAnimation step output
          { s with pyodide := some i2, currentVariables := snapshot i2.globals }) := by
        unfold stepBtnOnclick
        rw [if_neg (not_le.mpr hlt), if_neg (not_lt.mpr h0)]
        simp only [hstep, hpy, hr, hout]
      have hu := advance_frame (playAnimation step output
        { s with pyodide := some i2, currentVariables := snapshot i2.globals })
      have hf := playAnimation_frame step output
        { s with pyodide := some i2, currentVariables := snapshot i2.globals }
      have hh := playAnimation_history step output
        { s with pyodide := some i2, currentVariables := snapshot i2.globals }
      rw [heq]
      refine ⟨?_, ?_, ?_, ⟨i2, ?_, ?_⟩, ?_, ?_⟩
      · rw [hu.1, hf.1]
      · rw [hu.2.1, hf.2.1]
      · rw [hu.2.2.1, hf.2.2.1]
      · rw [hu.2.2.2.2.2.1, hf.2.2.2.2.1]
      · rw [hu.2.2.2.2.1, hf.2.2.2.1]
      · rw [hu.2.2.2.1]
        rcases hh with hh | ⟨e, hh⟩
        · rw [hh]
        · rw [hh]; exact List.prefix_append _ _
      · intro hN
        have hc := advance_complete (playAnimation step output
          { s with pyodide := some i2, currentVariables := snapshot i2.globals })
          (by rw [hf.1, hf.2.1]; exact hN)
        exact ⟨hc.1, hc.2.1, hc.2.2.1⟩

/-- After `k` Steps that all run without raising, the counter stands at `k` and the plan and
`totalSteps` are those of the starting state. -/
theorem iterate_step_success (E : Executor) (r : State) (hr0 : r.currentStep = 0) (k : Nat)
    (hk : (k : Int) ≤ r.totalSteps)
    (hok : ∀ j < k, stepSucceeds E ((stepBtnOnclick E)^[j] r) = true) :
    ((stepBtnOnclick E)^[k] r).currentStep = k ∧
      ((stepBtnOnclick E)^[k] r).totalSteps = r.totalSteps ∧
      ((stepBtnOnclick E)^[k] r).executionPlan = r.executionPlan := by
  induction k with
  | zero => simp [hr0]
  | succ m ih =>
    have hm := ih (by push_cast at hk; omega) (fun j hj => hok j (Nat.lt_succ_of_lt hj))
    have hs := stepBtnOnclick_success E ((stepBtnOnclick E)^[m] r) (by rw [hm.1]; omega)
      (by rw [hm.1, hm.2.1]; push_cast at hk; omega) (hok m (Nat.lt_succ_self m))
    rw [Function.iterate_succ_apply']
    refine ⟨?_, ?_, ?_⟩
    · rw [hs.1, hm.1]; push_cast; rfl
    · rw [hs.2.1, hm.2.1]
    · rw [hs.2.2.1, hm.2.2]

theorem history_le_currentStep (E : Executor) (s : State) (h : Reachable E s) :
    (s.animationHistory.length : Int) ≤ s.currentStep := by
  refine Reachable.induction E (fun s => (s.animationHistory.length : Int) ≤ s.currentStep)
    ?_ ?_ ?_ ?_ s h
  · intro a b c d
    simp [State.initial]
  · intro code s hs
    rcases runBtnOnclick_cases E code s with h | ⟨h1, h2, _⟩
    · rw [h]; exact hs
    · rw [h1, h2]; simp
  · intro s hs
    obtain ⟨_, _, h | ⟨h1, _, _, h4 | ⟨e, h4⟩⟩⟩ := stepBtnOnclick_cases E s
    · rw [h.1, h.2]; exact hs
    · rw [h1, h4]; omega
    · rw [h1, h4, List.length_append]; simp only [List.length_singleton]; push_cast; omega
  · intro s hs
    by_cases hpos : 0 < s.currentStep
    · have hf := backBtnOnclick_frame s hpos
      rw [hf.1, hf.2.1, List.length_dropLast]
      omega
    · rw [backBtnOnclick_nonpos s (not_lt.mp hpos)]; exact hs

end Lvl3

/-! ## Step controller of lvl3: the claims -/

/-- C6: with Run, Step and Back as atomic transitions and every outcome of the interpreter
allowed, every reachable state of the lvl3 step controller has `0 <= currentStep <= totalSteps`;
a Step issued when `currentStep >= totalSteps` and a Back issued when `currentStep = 0` change
nothing. -/
theorem currentStep_within_bounds (E : Executor) (s : Lvl3.State) (h : Lvl3.Reachable E s) :
    0 ≤ s.currentStep ∧ s.currentStep ≤ s.totalSteps ∧
      (s.currentStep ≥ s.totalSteps → Lvl3.stepBtnOnclick E s = s) ∧
      (s.currentStep = 0 → Lvl3.backBtnOnclick s = s) := by
  refine ⟨(Lvl3.currentStep_range E s h).1, (Lvl3.currentStep_range E s h).2, ?_, ?_⟩
  · intro hge
    unfold Lvl3.stepBtnOnclick
    rw [if_pos hge]
  · intro h0
    exact Lvl3.backBtnOnclick_nonpos s (le_of_eq h0)

/-- Witness of C6: the state after Run, Step, Back on the lesson source is reachable, and Back
changes nothing there. -/
theorem currentStep_within_bounds_witness :
    Lvl3.Reachable acceptAll stepBackSession ∧ stepBackSession.currentStep = 0 ∧
      0 ≤ stepBackSession.currentStep ∧ stepBackSession.currentStep ≤ stepBackSession.totalSteps ∧
      Lvl3.backBtnOnclick stepBackSession = stepBackSession :=
  ⟨⟨true, false, false, false, _, rfl⟩, by decide,
    (currentStep_within_bounds acceptAll stepBackSession ⟨true, false, false, false, _, rfl⟩).1,
    (currentStep_within_bounds acceptAll stepBackSession ⟨true, false, false, false, _, rfl⟩).2.1,
    (currentStep_within_bounds acceptAll stepBackSession
      ⟨true, false, false, false, _, rfl⟩).2.2.2 (by decide)⟩

/-- C9: when `currentStep > 0`, Back decrements `currentStep` by exactly 1, removes exactly the
most recently pushed history entry (if any) and leaves the Variable Store, the execution plan,
`totalSteps` and the interpreter state unchanged; when `currentStep = 0`, Back changes no state
at all. -/
theorem back_decrements_and_pops (s : Lvl3.State) :
    (0 < s.currentStep →
        (Lvl3.backBtnOnclick s).currentStep = s.currentStep - 1 ∧
        (Lvl3.backBtnOnclick s).animationHistory = s.animationHistory.dropLast ∧
        (Lvl3.backBtnOnclick s).currentVariables = s.currentVariables ∧
        (Lvl3.backBtnOnclick s).executionPlan = s.executionPlan ∧
        (Lvl3.backBtnOnclick s).totalSteps = s.totalSteps ∧
        (Lvl3.backBtnOnclick s).pyodide = s.pyodide) ∧
      (s.currentStep = 0 → Lvl3.backBtnOnclick s = s) :=
  ⟨Lvl3.backBtnOnclick_frame s, fun h0 => Lvl3.backBtnOnclick_nonpos s (le_of_eq h0)⟩

/-- Witness of C9: Back after Run, Step on the lesson source, and Back on the fresh page. -/
theorem back_decrements_and_pops_witness :
    (0 < oneStepSession.currentStep ∧
        (Lvl3.backBtnOnclick oneStepSession).currentStep = oneStepSession.currentStep - 1 ∧
        (Lvl3.backBtnOnclick oneStepSession).animationHistory =
          oneStepSession.animationHistory.dropLast ∧
        (Lvl3.backBtnOnclick oneStepSession).currentVariables = oneStepSession.currentVariables ∧
        (Lvl3.backBtnOnclick oneStepSession).executionPlan = oneStepSession.executionPlan ∧
        (Lvl3.backBtnOnclick oneStepSession).totalSteps = oneStepSession.totalSteps ∧
        (Lvl3.backBtnOnclick oneStepSession).pyodide = oneStepSession.pyodide) ∧
      ((freshPage acceptAll).currentStep = 0 ∧
        Lvl3.backBtnOnclick (freshPage acceptAll) = freshPage acceptAll) :=
  ⟨⟨by decide, (back_decrements_and_pops oneStepSession).1 (by decide)⟩,
    ⟨rfl, (back_decrements_and_pops (freshPage acceptAll)).2 rfl⟩⟩

/-- C10: if executing the current step's line raises an error, then after the Step `currentStep`,
`animationHistory` and the Variable Store are exactly what they were before (no increment, no
history entry pushed), no animation has played (the memory bank is unchanged and no page element
was created), and the Step control is disabled. -/
theorem failed_step_leaves_state (E : Executor) (s : Lvl3.State) (step : PlanStep)
    (interp : Interp) (h0 : 0 ≤ s.currentStep) (hlt : s.currentStep < s.totalSteps)
    (hstep : s.executionPlan[s.currentStep.toNat]? = some step) (hpy : s.pyodide = some interp)
    (herr : (E.runPython step.code interp).2 ≠ none) :
    (Lvl3.stepBtnOnclick E s).currentStep = s.currentStep ∧
      (Lvl3.stepBtnOnclick E s).animationHistory = s.animationHistory ∧
      (Lvl3.stepBtnOnclick E s).currentVariables = s.currentVariables ∧
      (Lvl3.stepBtnOnclick E s).memoryBank = s.memoryBank ∧
      (Lvl3.stepBtnOnclick E s).nextHandle = s.nextHandle ∧
      (Lvl3.stepBtnOnclick E s).stepBtnDisabled = true := by
  rcases hr : E.runPython step.code interp with ⟨i2, e⟩
  rw [hr] at herr
  cases e with
  | none => exact absurd rfl herr
  | some msg =>
    have heq : Lvl3.stepBtnOnclick E s = Lvl3.stepCatch { s with pyodide := some i2 } := by
      unfold Lvl3.stepBtnOnclick
      rw [if_neg (not_le.mpr hlt), if_neg (not_lt.mpr h0)]
      simp only [hstep, hpy, hr]
    rw [heq]
    simp [Lvl3.stepCatch, Lvl3.generateErrorExplanation]

/-- Witness of C10: on the lesson source, with an interpreter that raises on `breadth = 20`, the
second Step fails. -/
theorem failed_step_leaves_state_witness :
    (Lvl3.stepBtnOnclick (failOn "breadth = 20".toList) secondLineRaises).currentStep =
        secondLineRaises.currentStep ∧
      (Lvl3.stepBtnOnclick (failOn "breadth = 20".toList) secondLineRaises).animationHistory =
        secondLineRaises.animationHistory ∧
      (Lvl3.stepBtnOnclick (failOn "breadth = 20".toList) secondLineRaises).currentVariables =
        secondLineRaises.currentVariables ∧
      (Lvl3.stepBtnOnclick (failOn "breadth = 20".toList) secondLineRaises).memoryBank =
        secondLineRaises.memoryBank ∧
      (Lvl3.stepBtnOnclick (failOn "breadth = 20".toList) secondLineRaises).nextHandle =
        secondLineRaises.nextHandle ∧
      (Lvl3.stepBtnOnclick (failOn "breadth = 20".toList) secondLineRaises).stepBtnDisabled =
        true :=
  failed_step_leaves_state (failOn "breadth = 20".toList) secondLineRaises
    ⟨1, "breadth = 20".toList, StepType.assignment⟩ bootInterp (by decide) (by decide)
    (by decide) (by decide) (by decide)

/-- C7, counterexample: after Run and one successful Step on the lesson source with `10` edited
to `-10`, a run is in progress, `currentStep` is 1 and the history is empty: the line
`length = -10` is a calculation step and `animateCalculation` returns before its push. -/
theorem history_shorter_than_currentStep :
    Lvl3.Reachable acceptAll minusTenSession ∧ minusTenSession.isRunning = true ∧
      Lvl3.stepSucceeds acceptAll
        (Lvl3.runBtnOnclick acceptAll minusTenSource (freshPage acceptAll)) = true ∧
      minusTenSession.currentStep = 1 ∧ minusTenSession.animationHistory.length = 0 ∧
      ¬ ((minusTenSession.animationHistory.length : Int) = minusTenSession.currentStep) :=
  ⟨⟨true, false, false, false, _, rfl⟩, by decide, by decide, by decide, by decide, by decide⟩

/-- C7, amended: in every reachable state `animationHistory.length <= currentStep`.  A Step keeps
the entries already in the history and appends at most one; Back, when `currentStep > 0`, removes
the last entry if there is one and otherwise leaves the history alone; the history after Step
followed by Back is never longer than before the Step, and equals it whenever the Step
appended an entry; a Step that executes without error appends exactly one entry when the
animation of its line plays and none when the animation function returns at a guard. -/
theorem history_at_most_currentStep (E : Executor) (s : Lvl3.State) (h : Lvl3.Reachable E s) :
    (s.animationHistory.length : Int) ≤ s.currentStep ∧
      s.animationHistory <+: (Lvl3.stepBtnOnclick E s).animationHistory ∧
      (Lvl3.stepBtnOnclick E s).animationHistory.length ≤ s.animationHistory.length + 1 ∧
      (Lvl3.backBtnOnclick s).animationHistory =
        (if 0 < s.currentStep then s.animationHistory.dropLast else s.animationHistory) ∧
      (Lvl3.backBtnOnclick (Lvl3.stepBtnOnclick E s)).animationHistory.length ≤
        s.animationHistory.length ∧
      (∀ e, (Lvl3.stepBtnOnclick E s).animationHistory = s.animationHistory ++ [e] →
        (Lvl3.backBtnOnclick (Lvl3.stepBtnOnclick E s)).animationHistory =
          s.animationHistory) ∧
      (∀ step, s.executionPlan[s.currentStep.toNat]? = some step →
        s.currentStep < s.totalSteps → Lvl3.stepSucceeds E s = true →
        (Lvl3.stepBtnOnclick E s).animationHistory.length =
          s.animationHistory.length +
            (if Lvl3.animationPlays step s.memoryBank then 1 else 0)) := by
  have hback : ∀ t : Lvl3.State, (Lvl3.backBtnOnclick t).animationHistory =
      (if 0 < t.currentStep then t.animationHistory.dropLast else t.animationHistory) := by
    intro t
    by_cases hpos : 0 < t.currentStep
    · rw [if_pos hpos, (Lvl3.backBtnOnclick_frame t hpos).2.1]
    · rw [if_neg hpos, Lvl3.backBtnOnclick_nonpos t (not_lt.mp hpos)]
  obtain ⟨_, _, hc⟩ := Lvl3.stepBtnOnclick_cases E s
  refine ⟨Lvl3.history_le_currentStep E s h, ?_, ?_, hback s, ?_, ?_,
    fun step hstep hlt hok => Lvl3.stepBtnOnclick_history_length E s step
      (Lvl3.currentStep_range E s h).1 hlt hstep hok⟩
  · rcases hc with hc | ⟨_, _, _, hc | ⟨e, hc⟩⟩
    · rw [hc.2]
    · rw [hc]
    · rw [hc]; exact List.prefix_append _ _
  · rcases hc with hc | ⟨_, _, _, hc | ⟨e, hc⟩⟩
    · rw [hc.2]; omega
    · rw [hc]; omega
    · rw [hc]; simp
  · rw [hback]
    rcases hc with hc | ⟨_, _, _, hc | ⟨e, hc⟩⟩
    · rw [hc.2]; split
      · rw [List.length_dropLast]; omega
      · exact le_refl _
    · rw [hc]; split
      · rw [List.length_dropLast]; omega
      · exact le_refl _
    · rw [hc]; split
      · simp
      · rename_i hn
        rename_i h1 h2 h3
        exact absurd (by omega) hn
  · intro e he
    rw [hback]
    rcases hc with hc | ⟨h1, h2, _, _⟩
    · have := congrArg List.length (hc.2.symm.trans he)
      simp at this
    · rw [if_pos (by omega), he]
      simp

/-- Witness of the amended C7: the reachable state after Run, Step on the edited source. -/
theorem history_at_most_currentStep_witness :
    Lvl3.Reachable acceptAll minusTenSession ∧
      (minusTenSession.animationHistory.length : Int) ≤ minusTenSession.currentStep :=
  ⟨⟨true, false, false, false, _, rfl⟩,
    (history_at_most_currentStep acceptAll minusTenSession
      ⟨true, false, false, false, _, rfl⟩).1⟩

/-- C8, counterexample: on a source of blank lines Run succeeds with an empty plan, so
`totalSteps` is 0 and issuing Step `totalSteps` times is issuing none; the run is still marked in
progress, the editor is read-only and Run is disabled, and neither Step nor Back changes that. -/
theorem empty_plan_stays_running :
    (acceptAll.runPython (Lvl3.compileCall blankSource) bootInterp).2 = none ∧
      blankRun.executionPlan = [] ∧ blankRun.totalSteps = 0 ∧
      Lvl3.afterSteps acceptAll blankRun.totalSteps.toNat blankRun = blankRun ∧
      blankRun.currentStep = blankRun.totalSteps ∧
      blankRun.isRunning = true ∧ blankRun.readOnly = true ∧ blankRun.runBtnDisabled = true ∧
      Lvl3.stepBtnOnclick acceptAll blankRun = blankRun ∧
      Lvl3.backBtnOnclick blankRun = blankRun := by
  decide

/-- C8, amended: for every plan of length `totalSteps >= 1` built by a successful Run, issuing
Step exactly `totalSteps` times, each executing without error, reaches Complete:
`currentStep = totalSteps`, the run is marked finished (`isRunning` false, the editor editable
again, Run re-enabled), any further Step is a no-op, and nothing is cleared: `currentStep` stays
at `totalSteps`, the plan is still the one built by Run, the Variable Store is the snapshot of
the interpreter after the last step, and the history before the last Step is kept. -/
theorem steps_reach_complete (E : Executor) (code : Str) (s0 : Lvl3.State) (interp : Interp)
    (hrun : s0.isRunning = false) (hpy : Lvl3.loadPyodideEnv E s0.pyodide = some interp)
    (hvalid : (E.runPython (Lvl3.compileCall code) interp).2 = none)
    (hN : 1 ≤ (sourceLines code).length)
    (hok : ∀ k < (sourceLines code).length,
      Lvl3.stepSucceeds E (Lvl3.afterSteps E k (Lvl3.runBtnOnclick E code s0)) = true) :
    (Lvl3.afterSteps E (sourceLines code).length (Lvl3.runBtnOnclick E code s0)).currentStep =
        (Lvl3.afterSteps E (sourceLines code).length (Lvl3.runBtnOnclick E code s0)).totalSteps ∧
      (Lvl3.afterSteps E (sourceLines code).length (Lvl3.runBtnOnclick E code s0)).totalSteps =
        ((sourceLines code).length : Int) ∧
      (Lvl3.afterSteps E (sourceLines code).length (Lvl3.runBtnOnclick E code s0)).isRunning =
        false ∧
      (Lvl3.afterSteps E (sourceLines code).length (Lvl3.runBtnOnclick E code s0)).readOnly =
        false ∧
      (Lvl3.afterSteps E (sourceLines code).length
        (Lvl3.runBtnOnclick E code s0)).runBtnDisabled = false ∧
      Lvl3.stepBtnOnclick E
          (Lvl3.afterSteps E (sourceLines code).length (Lvl3.runBtnOnclick E code s0)) =
        Lvl3.afterSteps E (sourceLines code).length (Lvl3.runBtnOnclick E code s0) ∧
      (Lvl3.afterSteps E (sourceLines code).length
        (Lvl3.runBtnOnclick E code s0)).executionPlan = Lvl3.buildPlan code ∧
      (∃ last, (Lvl3.afterSteps E (sourceLines code).length
          (Lvl3.runBtnOnclick E code s0)).pyodide = some last ∧
        (Lvl3.afterSteps E (sourceLines code).length
          (Lvl3.runBtnOnclick E code s0)).currentVariables = Lvl3.snapshot last.globals) ∧
      (Lvl3.afterSteps E ((sourceLines code).length - 1)
          (Lvl3.runBtnOnclick E code s0)).animationHistory <+:
        (Lvl3.afterSteps E (sourceLines code).length
          (Lvl3.runBtnOnclick E code s0)).animationHistory := by
  have hr := Lvl3.runBtnOnclick_valid E code s0 interp hrun hpy hvalid
  have hr0 : (Lvl3.runBtnOnclick E code s0).currentStep = 0 := by rw [hr]
  have hrt : (Lvl3.runBtnOnclick E code s0).totalSteps = ((sourceLines code).length : Int) := by
    rw [hr]
  have hrp : (Lvl3.runBtnOnclick E code s0).executionPlan = Lvl3.buildPlan code := by rw [hr]
  generalize Lvl3.runBtnOnclick E code s0 = r at hok hr0 hrt hrp
  obtain ⟨m, hm⟩ : ∃ m, (sourceLines code).length = m + 1 := ⟨(sourceLines code).length - 1, by omega⟩
  rw [hm] at hok hrt ⊢
  have hprev := Lvl3.iterate_step_success E r hr0 m (by rw [hrt]; push_cast; omega)
    (fun j hj => hok j (Nat.lt_succ_of_lt hj))
  have hlast := Lvl3.stepBtnOnclick_success E ((Lvl3.stepBtnOnclick E)^[m] r)
    (by rw [hprev.1]; omega) (by rw [hprev.1, hprev.2.1, hrt]; push_cast; omega)
    (hok m (Nat.lt_succ_self m))
  have hfin : Lvl3.afterSteps E (m + 1) r =
      Lvl3.stepBtnOnclick E ((Lvl3.stepBtnOnclick E)^[m] r) := by
    unfold Lvl3.afterSteps
    rw [Function.iterate_succ_apply']
  have hflags := hlast.2.2.2.2.2 (by rw [hprev.1, hprev.2.1, hrt]; push_cast; omega)
  have hcs : (Lvl3.afterSteps E (m + 1) r).currentStep = (Lvl3.afterSteps E (m + 1) r).totalSteps := by
    rw [hfin, hlast.1, hlast.2.1, hprev.1, hprev.2.1, hrt]
    push_cast
    rfl
  refine ⟨hcs, ?_, ?_, ?_, ?_, ?_, ?_, ?_, ?_⟩
  · rw [hfin, hlast.2.1, hprev.2.1, hrt]
  · rw [hfin]; exact hflags.1
  · rw [hfin]; exact hflags.2.1
  · rw [hfin]; exact hflags.2.2
  · unfold Lvl3.stepBtnOnclick
    rw [if_pos (le_of_eq hcs.symm)]
  · rw [hfin, hlast.2.2.1, hprev.2.2, hrp]
  · rw [hfin]; exact hlast.2.2.2.1
  · rw [hfin, Nat.add_sub_cancel]; exact hlast.2.2.2.2.1

/-- Witness of the amended C8: the four steps of the lesson source. -/
theorem steps_reach_complete_witness :
    (Lvl3.afterSteps acceptAll (sourceLines lessonSource).length
        (Lvl3.runBtnOnclick acceptAll lessonSource (freshPage acceptAll))).currentStep = 4 ∧
      (Lvl3.afterSteps acceptAll (sourceLines lessonSource).length
        (Lvl3.runBtnOnclick acceptAll lessonSource (freshPage acceptAll))).isRunning = false :=
  ⟨by decide,
    (steps_reach_complete acceptAll lessonSource (freshPage acceptAll) bootInterp rfl rfl rfl
      (by decide) (by decide)).2.2.1⟩

/-! ## Step controller of lvl3: failure, restart and plan length -/

/-- C11, the code at the failing input: on the lesson source with a misspelt name on line 2,
after Run, Step, Step the second Step has failed and the Step control is disabled with
`currentStep = 1`; a click on Back then re-enables the Step control, and the next click on Step
runs `executionPlan[0]` again (the interpreter has been asked to run one more text) and advances
`currentStep` to 1. -/
theorem step_reenabled_after_failure :
    typoFailed.stepBtnDisabled = true ∧ typoFailed.currentStep = 1 ∧
      typoFailed.backBtnDisabled = false ∧
      typoFailed.pyodide.map Interp.hidden = some 3 ∧
      Lvl3.clickStep typoPython typoFailed = typoFailed ∧
      (Lvl3.clickBack typoFailed).stepBtnDisabled = false ∧
      (Lvl3.clickBack typoFailed).currentStep = 0 ∧
      (Lvl3.clickBack typoFailed).pyodide.map Interp.hidden = some 3 ∧
      (Lvl3.clickStep typoPython (Lvl3.clickBack typoFailed)).pyodide.map Interp.hidden =
        some 4 ∧
      (Lvl3.clickStep typoPython (Lvl3.clickBack typoFailed)).currentStep = 1 ∧
      (Lvl3.clickStep typoPython (Lvl3.clickBack typoFailed)).stepBtnDisabled = false := by
  decide

/-- C13, the code at the failing input: after a completed run of the lesson source, a Run on a
source that does not compile leaves `executionPlan` empty while `totalSteps` is still 4; the
state is reachable, the Step control is enabled, the Step guard `currentStep < totalSteps`
passes and `executionPlan[currentStep]` is undefined. -/
theorem plan_length_differs_after_failed_run :
    Lvl3.Reachable brokenPython staleTotalSession ∧
      staleTotalSession.executionPlan.length = 0 ∧ staleTotalSession.totalSteps = 4 ∧
      staleTotalSession.currentStep < staleTotalSession.totalSteps ∧
      staleTotalSession.stepBtnDisabled = false ∧
      staleTotalSession.executionPlan[staleTotalSession.currentStep.toNat]? = none :=
  ⟨⟨true, false, false, false, _, rfl⟩, by decide, by decide, by decide, by decide, by decide⟩

/-- C12: when no run is in progress, the interpreter is available and validation succeeds, the
state after Run has `currentStep = 0`, an empty animation history, an empty Variable Store, the
plan built from the current source, `totalSteps` equal to the plan length and the run marked in
progress; a second starting state `s2` under the same conditions yields the same values. -/
theorem run_resets_state (E : Executor) (code : Str) (s s2 : Lvl3.State) (interp interp2 : Interp)
    (hrun : s.isRunning = false) (hpy : Lvl3.loadPyodideEnv E s.pyodide = some interp)
    (hvalid : (E.runPython (Lvl3.compileCall code) interp).2 = none)
    (hrun2 : s2.isRunning = false) (hpy2 : Lvl3.loadPyodideEnv E s2.pyodide = some interp2)
    (hvalid2 : (E.runPython (Lvl3.compileCall code) interp2).2 = none) :
    ((Lvl3.runBtnOnclick E code s).currentStep = 0 ∧
        (Lvl3.runBtnOnclick E code s).animationHistory = [] ∧
        (Lvl3.runBtnOnclick E code s).currentVariables = [] ∧
        (Lvl3.runBtnOnclick E code s).executionPlan = Lvl3.buildPlan code ∧
        (Lvl3.runBtnOnclick E code s).totalSteps =
          ((Lvl3.runBtnOnclick E code s).executionPlan.length : Int) ∧
        (Lvl3.runBtnOnclick E code s).isRunning = true) ∧
      ((Lvl3.runBtnOnclick E code s2).currentStep = (Lvl3.runBtnOnclick E code s).currentStep ∧
        (Lvl3.runBtnOnclick E code s2).animationHistory =
          (Lvl3.runBtnOnclick E code s).animationHistory ∧
        (Lvl3.runBtnOnclick E code s2).currentVariables =
          (Lvl3.runBtnOnclick E code s).currentVariables ∧
        (Lvl3.runBtnOnclick E code s2).executionPlan =
          (Lvl3.runBtnOnclick E code s).executionPlan ∧
        (Lvl3.runBtnOnclick E code s2).totalSteps = (Lvl3.runBtnOnclick E code s).totalSteps ∧
        (Lvl3.runBtnOnclick E code s2).isRunning = (Lvl3.runBtnOnclick E code s).isRunning) := by
  rw [Lvl3.runBtnOnclick_valid E code s interp hrun hpy hvalid,
    Lvl3.runBtnOnclick_valid E code s2 interp2 hrun2 hpy2 hvalid2]
  simp [Lvl3.buildPlan, mapWithIndex_length]

/-- Witness of C12: Run on the edited source from a fresh page and from a completed run of the
lesson source. -/
theorem run_resets_state_witness :
    (Lvl3.runBtnOnclick acceptAll minusTenSource completedSession).currentStep = 0 ∧
      (Lvl3.runBtnOnclick acceptAll minusTenSource completedSession).animationHistory = [] ∧
      (Lvl3.runBtnOnclick acceptAll minusTenSource completedSession).currentVariables = [] ∧
      (Lvl3.runBtnOnclick acceptAll minusTenSource completedSession).executionPlan =
        Lvl3.buildPlan minusTenSource ∧
      (Lvl3.runBtnOnclick acceptAll minusTenSource completedSession).totalSteps =
        ((Lvl3.runBtnOnclick acceptAll minusTenSource completedSession).executionPlan.length :
          Int) ∧
      (Lvl3.runBtnOnclick acceptAll minusTenSource completedSession).isRunning = true :=
  (run_resets_state acceptAll minusTenSource completedSession (freshPage acceptAll) bootInterp
    bootInterp (by decide) (by decide) (by decide) rfl rfl rfl).1

/-! ## Variable Store and newest output -/

theorem keepGlobal_iff (n : Str) :
    Lvl3.keepGlobal n = true ↔
      (n.head? ≠ some '_' ∧ n ≠ "output_buffer".toList ∧ n ≠ "sys".toList ∧
        n ≠ "io".toList) := by
  cases n with
  | nil => simp [Lvl3.keepGlobal, startsWith, List.isPrefixOf]
  | cons c cs =>
    simp [Lvl3.keepGlobal, startsWith, List.isPrefixOf]
    have hsymm : ('_' = c) ↔ (c = '_') := eq_comm
    rw [hsymm]
    tauto

theorem storeSet_fresh (vars : Store) (key value : Str)
    (h : key ∉ vars.map Prod.fst) : Lvl3.storeSet vars key value = vars ++ [(key, value)] := by
  unfold Lvl3.storeSet
  rw [if_neg]
  simp only [List.any_eq_true, beq_iff_eq, not_exists, not_and]
  intro kv hkv hk
  exact h (List.mem_map.mpr ⟨kv, hkv, hk⟩)

/-- On globals with pairwise different names, as the entries of a `Map` are, the store built by
the loop of lines 168-173 is the list of the kept entries, in order. -/
theorem snapshot_foldl (globals : List (Str × Str)) (acc : Store)
    (hnodup : (globals.map Prod.fst).Nodup)
    (hdisj : ∀ k ∈ acc.map Prod.fst, k ∉ globals.map Prod.fst) :
    globals.foldl (fun acc kv => if Lvl3.keepGlobal kv.1 then Lvl3.storeSet acc kv.1 kv.2 else acc)
        acc = acc ++ globals.filter (fun kv => Lvl3.keepGlobal kv.1) := by
  induction globals generalizing acc with
  | nil => simp
  | cons kv rest ih =>
    rw [List.map_cons, List.nodup_cons] at hnodup
    rw [List.foldl_cons]
    by_cases hk : Lvl3.keepGlobal kv.1 = true
    · have hfresh : kv.1 ∉ acc.map Prod.fst := fun hmem => hdisj kv.1 hmem (by simp)
      rw [if_pos hk, storeSet_fresh acc kv.1 kv.2 hfresh, ih _ hnodup.2]
      · simp [List.filter_cons, hk]
      · intro k hkmem
        rw [List.map_append, List.mem_append] at hkmem
        rcases hkmem with hkmem | hkmem
        · intro hin
          exact hdisj k hkmem (by simp [hin])
        · simp only [List.map_cons, List.map_nil, List.mem_singleton] at hkmem
          rw [hkmem]
          exact hnodup.1
    · rw [if_neg hk, ih _ hnodup.2]
      · simp [List.filter_cons, hk]
      · intro k hkmem hin
        exact hdisj k hkmem (by simp [hin])

theorem snapshot_eq_filter (globals : List (Str × Str)) (hnodup : (globals.map Prod.fst).Nodup) :
    Lvl3.snapshot globals = globals.filter (fun kv => Lvl3.keepGlobal kv.1) := by
  unfold Lvl3.snapshot
  rw [snapshot_foldl globals [] hnodup (by simp)]
  simp

/-- After a Step the interpreter runs without raising, the store is the snapshot of the globals
the interpreter holds after the line. -/
theorem Lvl3.stepBtnOnclick_store (E : Executor) (s : Lvl3.State) (step : PlanStep)
    (interp : Interp) (h0 : 0 ≤ s.currentStep) (hlt : s.currentStep < s.totalSteps)
    (hstep : s.executionPlan[s.currentStep.toNat]? = some step) (hpy : s.pyodide = some interp)
    (hok : Lvl3.stepSucceeds E s = true) :
    (Lvl3.stepBtnOnclick E s).currentVariables =
      Lvl3.snapshot (E.runPython step.code interp).1.globals := by
  unfold Lvl3.stepSucceeds at hok
  rcases hr : E.runPython step.code interp with ⟨i2, e⟩
  simp only [hstep, hpy, hr, Bool.and_eq_true, Option.isNone_iff_eq_none,
    Option.isSome_iff_exists] at hok
  obtain ⟨he, output, hout⟩ := hok
  subst he
  have heq : Lvl3.stepBtnOnclick E s = Lvl3.advance (Lvl3.playAnimation step output
      { s with pyodide := some i2, currentVariables := Lvl3.snapshot i2.globals }) := by
    unfold Lvl3.stepBtnOnclick
    rw [if_neg (not_le.mpr hlt), if_neg (not_lt.mpr h0)]
    simp only [hstep, hpy, hr, hout]
  rw [heq, (Lvl3.advance_frame _).2.2.2.2.1, (Lvl3.playAnimation_frame _ _ _).2.2.2.1]

/-- C14: after every successful step of the lvl3 Step handler, for every snapshot of interpreter
globals (a `Map`, so its names are pairwise different), the store contains exactly the entries of
the snapshot whose name does not begin with an underscore and is none of `output_buffer`, `sys`,
`io`, each with the string form of its value, in snapshot order; no other name is in the store,
whatever the store held before the step. -/
theorem store_is_filtered_snapshot (E : Executor) (s : Lvl3.State) (step : PlanStep)
    (interp : Interp) (h0 : 0 ≤ s.currentStep) (hlt : s.currentStep < s.totalSteps)
    (hstep : s.executionPlan[s.currentStep.toNat]? = some step) (hpy : s.pyodide = some interp)
    (hok : Lvl3.stepSucceeds E s = true)
    (hkeys : ((E.runPython step.code interp).1.globals.map Prod.fst).Nodup) :
    (Lvl3.stepBtnOnclick E s).currentVariables =
        (E.runPython step.code interp).1.globals.filter (fun kv => Lvl3.keepGlobal kv.1) ∧
      ∀ n v, (n, v) ∈ (Lvl3.stepBtnOnclick E s).currentVariables ↔
        ((n, v) ∈ (E.runPython step.code interp).1.globals ∧ n.head? ≠ some '_' ∧
          n ≠ "output_buffer".toList ∧ n ≠ "sys".toList ∧ n ≠ "io".toList) := by
  have hstore := Lvl3.stepBtnOnclick_store E s step interp h0 hlt hstep hpy hok
  rw [snapshot_eq_filter _ hkeys] at hstore
  refine ⟨hstore, ?_⟩
  intro n v
  rw [hstore, List.mem_filter, keepGlobal_iff]


/-- Witness of C14: the first Step of the lesson leaves exactly `length` in the store; the
dunder names and `sys`, `io`, `output_buffer` of the interpreter are left out. -/
theorem store_is_filtered_snapshot_witness :
    (Lvl3.stepBtnOnclick lessonPython lessonRun).currentVariables =
      [("length".toList, "10".toList)] :=
  (store_is_filtered_snapshot lessonPython lessonRun ⟨0, "length = 10".toList, StepType.assignment⟩
    lessonBoot (by decide) (by decide) (by decide) (by decide) (by decide) (by decide)).1.trans
    (by decide)

theorem getLast?_filter_spec {α : Type} (p : α → Bool) (xs : List α) :
    ((xs.filter p).getLast? = none ∧ ∀ x ∈ xs, p x = false) ∨
      ∃ l pre post, (xs.filter p).getLast? = some l ∧ xs = pre ++ l :: post ∧ p l = true ∧
        ∀ m ∈ post, p m = false := by
  induction xs with
  | nil => exact Or.inl (by simp)
  | cons x rest ih =>
    rcases ih with ⟨hnone, hall⟩ | ⟨l, pre, post, hsome, hsplit, hl, hpost⟩
    · have hnil : rest.filter p = [] := List.getLast?_eq_none_iff.mp hnone
      by_cases hx : p x = true
      · refine Or.inr ⟨x, [], rest, ?_, rfl, hx, hall⟩
        simp [List.filter_cons, hx, hnil]
      · refine Or.inl ⟨?_, ?_⟩
        · simp [List.filter_cons, hx, hnil]
        · intro y hy
          rcases List.mem_cons.mp hy with rfl | hy
          · simpa using hx
          · exact hall y hy
    · refine Or.inr ⟨l, x :: pre, post, ?_, by rw [hsplit]; rfl, hl, hpost⟩
      by_cases hx : p x = true
      · rw [List.filter_cons, if_pos hx]
        cases hf : rest.filter p with
        | nil => rw [hf] at hsome; simp at hsome
        | cons y ys => rw [hf] at hsome; rw [List.getLast?_cons_cons]; exact hsome
      · rw [List.filter_cons, if_neg hx]; exact hsome

/-- C15: for every accumulated stdout text, the line the lvl3 and lvl4 Step handlers hand to the
print animation is the last of its line-feed separated lines whose trimmed text is non-empty,
unmodified, and it is the empty string when no such line exists. -/
theorem newOutput_is_last_nonblank_line (output : Str) :
    Lvl4.newOutput output = Lvl3.newOutput output ∧
      ((∃ pre post, split LF output = pre ++ Lvl3.newOutput output :: post ∧
          trim (Lvl3.newOutput output) ≠ [] ∧ ∀ m ∈ post, trim m = []) ∨
        ((∀ l ∈ split LF output, trim l = []) ∧ Lvl3.newOutput output = [])) ∧
      (∀ (n : Nat) (code : Str) (s : Lvl3.State),
        Lvl3.playAnimation ⟨n, code, StepType.print⟩ output s =
          Lvl3.animatePrint ⟨n, code, StepType.print⟩ (Lvl3.newOutput output) s) := by
  refine ⟨rfl, ?_, fun _ _ _ => rfl⟩
  have hblank : ∀ l : Str, truthy (trim l) = false ↔ trim l = [] := by
    intro l
    cases trim l <;> simp [truthy]
  rcases getLast?_filter_spec (fun l => truthy (trim l)) (split LF output) with
    ⟨hnone, hall⟩ | ⟨l, pre, post, hsome, hsplit, hl, hpost⟩
  · right
    refine ⟨fun l hl => (hblank l).1 (hall l hl), ?_⟩
    unfold Lvl3.newOutput sourceLines
    rw [hnone]
  · left
    have hnew : Lvl3.newOutput output = l := by
      unfold Lvl3.newOutput sourceLines
      rw [hsome]
    rw [hnew]
    exact ⟨pre, post, hsplit, (truthy_iff _).1 hl, fun m hm => (hblank m).1 (hpost m hm)⟩

/-! ## Print-argument scanner: lookup and tokens -/

/-- C16, the code at the failing input: with `length` bound to the empty string in the store
(the string form of an empty Python string), the part returned for the argument `length` has
the token text `length` as its value although the name is bound. -/
theorem bound_empty_value_falls_back :
    Store.get [("length".toList, [])] "length".toList = some [] ∧
      parsePrintContent [("length".toList, [])] "length".toList =
        [{ type := PartType.variable, value := "length".toList,
           varName := some "length".toList, source := PartSource.memory }] ∧
      ((parsePrintContent [("length".toList, [])] "length".toList).map Part.value ≠ [[]]) := by
  decide

/-! ## Line classifier of lvl3 and quoted operators -/

/-- The lvl3 step type of a line without `print(`. -/
theorem Lvl3.stepType_without_print (line : Str) (hp : ¬ "print(".toList <:+: line) :
    Lvl3.stepType line =
      if ∃ c ∈ line, c = '*' ∨ c = '+' ∨ c = '-' ∨ c = '/' then StepType.calculation
      else StepType.assignment := by
  unfold Lvl3.stepType
  rw [if_neg (fun h => hp ((includes_iff_substring _ _).1 h))]
  by_cases hop : ∃ c ∈ line, c = '*' ∨ c = '+' ∨ c = '-' ∨ c = '/'
  · rw [if_pos hop, if_pos]
    obtain ⟨c, hc, h⟩ := hop
    simp only [Bool.or_eq_true]
    rcases h with h | h | h | h <;> subst h
    · exact Or.inl (Or.inl (Or.inl ((includes_singleton_iff _ _).2 hc)))
    · exact Or.inl (Or.inl (Or.inr ((includes_singleton_iff _ _).2 hc)))
    · exact Or.inl (Or.inr ((includes_singleton_iff _ _).2 hc))
    · exact Or.inr ((includes_singleton_iff _ _).2 hc)
  · rw [if_neg hop, if_neg]
    intro h
    apply hop
    simp only [Bool.or_eq_true] at h
    rcases h with ((h | h) | h) | h
    · exact ⟨'*', (includes_singleton_iff _ _).1 h, Or.inl rfl⟩
    · exact ⟨'+', (includes_singleton_iff _ _).1 h, Or.inr (Or.inl rfl)⟩
    · exact ⟨'-', (includes_singleton_iff _ _).1 h, Or.inr (Or.inr (Or.inl rfl))⟩
    · exact ⟨'/', (includes_singleton_iff _ _).1 h, Or.inr (Or.inr (Or.inr rfl))⟩

/-- C18, counterexample: the line `msg = "a-b"` has no `print(`, its only operator character
lies between the two double quotes, and its lvl3 step type is `calculation`. -/
theorem quoted_operator_is_calculation :
    ¬ ("print(".toList <:+: ("msg = ".toList ++ [DQ] ++ "a-b".toList ++ [DQ])) ∧
      (∀ c ∈ "msg = ".toList, ¬ (c = '*' ∨ c = '+' ∨ c = '-' ∨ c = '/')) ∧
      Lvl3.stepType ("msg = ".toList ++ [DQ] ++ "a-b".toList ++ [DQ]) =
        StepType.calculation ∧
      Lvl3.stepType ("msg = ".toList ++ [DQ] ++ "a-b".toList ++ [DQ]) ≠
        StepType.assignment := by
  decide

/-- C18, amended: in the lvl3 classifier an arithmetic operator counts wherever it occurs in the
line, inside a quoted string literal too: every line without `print(` that holds one of `+`,
`-`, `*`, `/` inside a single- or double-quoted literal is classified `calculation`, and a line
without `print(` is classified `assignment` exactly when it holds no operator character at
all. -/
theorem operator_counts_inside_quotes (line : Str) (hp : ¬ "print(".toList <:+: line) :
    (∀ (q : Char) (before literal after : Str), (q = DQ ∨ q = SQ) →
        line = before ++ [q] ++ literal ++ [q] ++ after →
        (∃ c ∈ literal, c = '*' ∨ c = '+' ∨ c = '-' ∨ c = '/') →
        Lvl3.stepType line = StepType.calculation) ∧
      (Lvl3.stepType line = StepType.assignment ↔
        ¬ ∃ c ∈ line, c = '*' ∨ c = '+' ∨ c = '-' ∨ c = '/') := by
  have key := Lvl3.stepType_without_print line hp
  constructor
  · rintro q before literal after _ rfl ⟨c, hc, hop⟩
    rw [key, if_pos]
    exact ⟨c, by simp [hc], hop⟩
  · rw [key]
    by_cases hop : ∃ c ∈ line, c = '*' ∨ c = '+' ∨ c = '-' ∨ c = '/'
    · rw [if_pos hop]
      simp [hop]
    · rw [if_neg hop]
      simp [hop]

/-- Witness of the amended C18: the line `msg = "a-b"`. -/
theorem operator_counts_inside_quotes_witness :
    Lvl3.stepType ("msg = ".toList ++ [DQ] ++ "a-b".toList ++ [DQ] ++ []) =
      StepType.calculation :=
  (operator_counts_inside_quotes ("msg = ".toList ++ [DQ] ++ "a-b".toList ++ [DQ] ++ [])
    (by decide)).1 DQ "msg = ".toList "a-b".toList [] (Or.inl rfl) rfl (by decide)

/-! ## Print-argument scanner on lists without quotes -/

theorem trim_append_whitespace (w x : Str) (hw : ∀ c ∈ w, isWhiteSpace c = true) :
    trim (w ++ x) = trim x := by
  unfold trim
  rw [List.dropWhile_append_of_pos hw]

theorem all_whitespace_of_trim_nil (y : Str) (h : trim y = []) :
    ∀ c ∈ y, isWhiteSpace c = true := by
  unfold trim at h
  rw [List.reverse_eq_nil_iff, List.dropWhile_eq_nil_iff] at h
  have h2 : (y.dropWhile isWhiteSpace).dropWhile isWhiteSpace = [] :=
    List.dropWhile_eq_nil_iff.mpr (fun x hx => h x (List.mem_reverse.mpr hx))
  rw [List.dropWhile_idempotent] at h2
  exact List.dropWhile_eq_nil_iff.mp h2

theorem split_cons_shape (sep : Char) (s : Str) : ∃ t ts, split sep s = t :: ts := by
  induction s with
  | nil => exact ⟨[], [], rfl⟩
  | cons c cs ih =>
    obtain ⟨t, ts, h⟩ := ih
    by_cases hc : c = sep
    · exact ⟨[], split sep cs, by simp [split, hc]⟩
    · exact ⟨c :: t, ts, by simp [split, hc, h]⟩

theorem pendingNames_norm (cur tok : Str) (ts : List Str) :
    pendingNames cur tok ts = pendingNames (cur ++ dropSpaces tok) [] ts := by
  cases ts <;> simp [pendingNames, dropSpaces]

theorem pendingNames_whitespace (ts : List Str) :
    ∀ (tok cur : Str), (∀ c ∈ cur, isWhiteSpace c = true) →
      pendingNames cur tok ts =
        ((tok :: ts).map (fun t => trim (dropSpaces t))).filter truthy := by
  induction ts with
  | nil =>
    intro tok cur hcur
    simp only [pendingNames, trim_append_whitespace cur _ hcur, List.map_cons, List.map_nil]
    by_cases ht : truthy (trim (dropSpaces tok)) = true
    · simp [ht]
    · simp [ht]
  | cons next rest ih =>
    intro tok cur hcur
    simp only [pendingNames, trim_append_whitespace cur _ hcur, List.map_cons]
    by_cases ht : truthy (trim (dropSpaces tok)) = true
    · rw [if_pos ht, ih next [] (by simp), List.filter_cons, if_pos ht]
      simp
    · rw [if_neg ht, List.filter_cons, if_neg ht]
      have hnil : trim (dropSpaces tok) = [] := by
        cases h : trim (dropSpaces tok) with
        | nil => rfl
        | cons a b => rw [h] at ht; simp [truthy] at ht
      have hall := all_whitespace_of_trim_nil _ hnil
      rw [ih next (cur ++ dropSpaces tok) (by
        intro c hc
        rcases List.mem_append.mp hc with h | h
        · exact hcur c h
        · exact hall c h)]
      simp

/-- The scanner on text without quote characters, started outside a literal: it returns the
parts already pushed followed by one variable part for each pending name. -/
theorem scan_unquoted_tokens (vars : Store) (content : Str)
    (hq : ∀ c ∈ content, c ≠ DQ ∧ c ≠ SQ) :
    ∀ (st : Scan) (t : Str) (ts : List Str), st.inQuote = false → split ',' content = t :: ts →
      finishScan vars (scanLoop vars st content) =
        st.parts ++ (pendingNames st.current t ts).map (variablePart vars) := by
  induction content with
  | nil =>
    intro st t ts _ hsplit
    simp only [split, List.cons.injEq] at hsplit
    obtain ⟨rfl, rfl⟩ := hsplit
    simp only [scanLoop, List.foldl_nil, finishScan, pendingNames, dropSpaces, List.filter_nil,
      List.append_nil]
    by_cases ht : truthy (trim st.current) = true
    · simp [ht]
    · simp [ht]
  | cons c cs ih =>
    intro st t ts hst hsplit
    obtain ⟨hcq, hcs⟩ : (c ≠ DQ ∧ c ≠ SQ) ∧ ∀ d ∈ cs, d ≠ DQ ∧ d ≠ SQ :=
      ⟨hq c (List.mem_cons_self _ _), fun d hd => hq d (List.mem_cons_of_mem _ hd)⟩
    obtain ⟨t2, ts2, h2⟩ := split_cons_shape ',' cs
    rw [scanLoop_cons]
    by_cases hc : c = ','
    · subst hc
      have hshape : t = [] ∧ ts = t2 :: ts2 := by
        simp only [split, if_true, h2, List.cons.injEq] at hsplit
        exact ⟨hsplit.1.symm, hsplit.2.symm⟩
      obtain ⟨rfl, rfl⟩ := hshape
      have hnq : ¬ (',' = DQ ∨ ',' = SQ) := by decide
      by_cases ht : truthy (trim st.current) = true
      · have hstep : scanChar vars st ',' =
            { st with parts := st.parts ++ [variablePart vars (trim st.current)], current := [] } := by
          simp [scanChar, hnq, hst, ht]
        have hih := ih hcs
          ⟨st.parts ++ [variablePart vars (trim st.current)], [], st.inQuote, st.quoteChar⟩
          t2 ts2 hst h2
        rw [hstep, hih]
        simp [pendingNames, dropSpaces, ht]
      · have hstep : scanChar vars st ',' = st := by
          simp [scanChar, hnq, hst, ht]
        rw [hstep, ih hcs st t2 ts2 hst h2]
        simp [pendingNames, dropSpaces, ht]
    · have hshape : t = c :: t2 ∧ ts = ts2 := by
        simp only [split, if_neg hc, h2, List.cons.injEq] at hsplit
        exact ⟨hsplit.1.symm, hsplit.2.symm⟩
      obtain ⟨rfl, rfl⟩ := hshape
      by_cases hsp : c = ' '
      · subst hsp
        have hstep : scanChar vars st ' ' = st := by
          simp [scanChar, hcq.1, hcq.2, hst, hc]
        rw [hstep, ih hcs st t2 ts hst h2, pendingNames_norm st.current (' ' :: t2),
          pendingNames_norm st.current t2]
        simp [dropSpaces, List.filter_cons]
      · have hstep : scanChar vars st c = { st with current := st.current ++ [c] } := by
          simp [scanChar, hcq.1, hcq.2, hst, hc, hsp]
        have hih := ih hcs ⟨st.parts, st.current ++ [c], st.inQuote, st.quoteChar⟩ t2 ts hst h2
        rw [hstep, hih, pendingNames_norm st.current (c :: t2),
          pendingNames_norm (st.current ++ [c]) t2]
        simp [dropSpaces, List.filter_cons, hsp]


/-- C17, counterexample: the argument list `a b` has no quote character and one comma-delimited
token, `a b`, which trimming leaves unchanged; the scanner returns one variable part named `ab`,
the inner space removed. -/
theorem inner_space_is_dropped :
    (∀ c ∈ "a b".toList, c ≠ DQ ∧ c ≠ SQ) ∧
      trimmedTokens "a b".toList = ["a b".toList] ∧
      parsePrintContent [] "a b".toList = [variablePart [] "ab".toList] ∧
      (parsePrintContent [] "a b".toList).map Part.varName ≠
        (trimmedTokens "a b".toList).map some := by
  decide

/-- C17, amended: for every argument list without quote characters, the parts are all variable
parts and are, in order, the non-empty names of the comma-delimited tokens of the list, where
the name of a token is the token with every space character (U+0020) deleted, inner ones
included, and then its leading and trailing white space removed. -/
theorem unquoted_list_token_names (vars : Store) (content : Str)
    (hq : ∀ c ∈ content, c ≠ DQ ∧ c ≠ SQ) :
    parsePrintContent vars content = (tokenNames content).map (variablePart vars) ∧
      (parsePrintContent vars content).map Part.varName = (tokenNames content).map some ∧
      ∀ p ∈ parsePrintContent vars content, p.type = PartType.variable := by
  obtain ⟨t, ts, hsplit⟩ := split_cons_shape ',' content
  have hscan := scan_unquoted_tokens vars content hq
    { parts := [], current := [], inQuote := false, quoteChar := none } t ts rfl hsplit
  have hparse : parsePrintContent vars content = (tokenNames content).map (variablePart vars) := by
    have hdef : parsePrintContent vars content = finishScan vars (scanLoop vars
        { parts := [], current := [], inQuote := false, quoteChar := none } content) := rfl
    rw [hdef, hscan, pendingNames_whitespace ts t [] (by simp)]
    simp [tokenNames, hsplit]
  refine ⟨hparse, ?_, ?_⟩
  · rw [hparse, List.map_map]
    rfl
  · intro p hp
    rw [hparse, List.mem_map] at hp
    obtain ⟨n, _, rfl⟩ := hp
    rfl

/-- Witness of the amended C17: the list `length , a b,, breadth`. -/
theorem unquoted_list_token_names_witness :
    (parsePrintContent [] "length , a b,, breadth".toList).map Part.varName =
      [some "length".toList, some "ab".toList, some "breadth".toList] :=
  (unquoted_list_token_names [] "length , a b,, breadth".toList (by decide)).2.1.trans
    (by decide)


/-! ## Explanation requesters -/

/-- C19: when the transport fails (the fetch rejects, or the body cannot be read as JSON), each
requester completes normally and its result is a fallback defined in the code: the `catch`
template in lvl3, the message selected by the step's kind (input, print or other) in lvl4, and
the three fallback lines in `generateExplanation` of script.js. -/
theorem requesters_fall_back {J : Type} (parse : Str → Option J) (step : PlanStep)
    (vars : Store) (t : Transport)
    (hfail : t = Transport.rejected ∨ ∃ ok, t = Transport.unreadable ok) :
    Lvl3.generateStepExplanation step t = Except.ok (Lvl3.fallbackMessage step) ∧
      Lvl4.generateStepExplanation step vars t = Except.ok (Lvl4.fallbackMsg step vars) ∧
      (step.type = StepType.input → Lvl4.fallbackMsg step vars = Lvl4.inputFallback vars) ∧
      (step.type = StepType.print → Lvl4.fallbackMsg step vars = Lvl4.printFallback) ∧
      (step.type ≠ StepType.input → step.type ≠ StepType.print →
        Lvl4.fallbackMsg step vars = Lvl4.otherFallback step) ∧
      generateExplanation parse t = Except.ok (Explanation.lines fallbackExplanations) := by
  refine ⟨?_, ?_, ?_, ?_, ?_, ?_⟩
  · rcases hfail with rfl | ⟨ok, rfl⟩ <;> rfl
  · rcases hfail with rfl | ⟨ok, rfl⟩ <;> rfl
  · intro h
    simp [Lvl4.fallbackMsg, h]
  · intro h
    simp [Lvl4.fallbackMsg, h]
  · intro h1 h2
    simp [Lvl4.fallbackMsg, h1, h2]
  · rcases hfail with rfl | ⟨ok, rfl⟩
    · rfl
    · cases ok <;> rfl

/-- Witness of C19: a rejected fetch on an input step of lvl4 with `name` in the store. -/
theorem requesters_fall_back_witness :
    Lvl4.generateStepExplanation ⟨0, "name = input()".toList, StepType.input⟩
        [("name".toList, "Ann".toList)] Transport.rejected =
      Except.ok (Lvl4.fallbackMsg ⟨0, "name = input()".toList, StepType.input⟩
        [("name".toList, "Ann".toList)]) ∧
      Lvl4.fallbackMsg ⟨0, "name = input()".toList, StepType.input⟩
          [("name".toList, "Ann".toList)] =
        Lvl4.inputFallback [("name".toList, "Ann".toList)] :=
  ⟨(requesters_fall_back knownArrayParse ⟨0, "name = input()".toList, StepType.input⟩
      [("name".toList, "Ann".toList)] Transport.rejected (Or.inl rfl)).2.1,
    (requesters_fall_back knownArrayParse ⟨0, "name = input()".toList, StepType.input⟩
      [("name".toList, "Ann".toList)] Transport.rejected (Or.inl rfl)).2.2.1 rfl⟩

/-- The three outcomes of `generateExplanation` on a successful response with a non-empty
text: no bracketed match gives the split lines, a match that parses gives the parsed array, and
a match that does not parse gives the generic fallback lines. -/
theorem generateExplanation_text {J : Type} (parse : Str → Option J) (aiResponse : Str)
    (hne : aiResponse ≠ []) :
    generateExplanation parse (Transport.body true (Extracted.text aiResponse)) =
      match matchJsonArray aiResponse with
      | none => Except.ok (Explanation.lines (splitLines aiResponse))
      | some jsonMatch =>
        match parse jsonMatch with
        | some j => Except.ok (Explanation.parsed j)
        | none => Except.ok (Explanation.lines fallbackExplanations) := by
  have ht : truthy aiResponse = true := (truthy_iff _).2 hne
  unfold generateExplanation explanationBody
  simp only [if_true, ht]
  cases matchJsonArray aiResponse with
  | none => rfl
  | some m =>
    simp only
    cases parse m <;> rfl

/-- C20, the code at the failing input: for the model text `Step [1]: assign x` / `Step [2]:
print x`, received with a successful response, the pattern matches from the first `[` to the
last `]`; `JSON.parse` throws on that match, and the result is the three generic fallback lines,
not the two lines of the raw text. -/
theorem parse_failure_gets_generic_fallback {J : Type} (parse : Str → Option J)
    (hthrows : parse "[1]: assign x\nStep [2]".toList = none) :
    bracketedText ≠ [] ∧
      matchJsonArray bracketedText = some "[1]: assign x\nStep [2]".toList ∧
      generateExplanation parse (Transport.body true (Extracted.text bracketedText)) =
        Except.ok (Explanation.lines fallbackExplanations) ∧
      splitLines bracketedText = ["Step [1]: assign x".toList, "Step [2]: print x".toList] ∧
      fallbackExplanations ≠ splitLines bracketedText := by
  have hm : matchJsonArray bracketedText = some "[1]: assign x\nStep [2]".toList := by decide
  refine ⟨by decide, hm, ?_, by decide, by decide⟩
  rw [generateExplanation_text parse bracketedText (by decide), hm]
  simp only [hthrows]

/-- Witness of C20: the stand-in parser throws on the matched text. -/
theorem parse_failure_gets_generic_fallback_witness :
    generateExplanation knownArrayParse (Transport.body true (Extracted.text bracketedText)) =
      Except.ok (Explanation.lines fallbackExplanations) :=
  (parse_failure_gets_generic_fallback knownArrayParse (by decide)).2.2.1


/-! ## The lesson end to end, and state that outlives a run -/

/-- C21: for the lesson source the plan has 4 steps with line numbers 0 to 3 and kinds
assignment, assignment, calculation, print; with an interpreter that runs each line as Python
does, the four Steps all succeed, the Variable Store afterwards is exactly `length` = `10`,
`breadth` = `20`, `area` = `200`, the captured stdout is `200` and a line feed, and the output
line emitted by the print step is `200`. -/
theorem lesson_end_to_end :
    lessonRun.executionPlan =
        [⟨0, "length = 10".toList, StepType.assignment⟩,
         ⟨1, "breadth = 20".toList, StepType.assignment⟩,
         ⟨2, "area = length * breadth".toList, StepType.calculation⟩,
         ⟨3, "print(area)".toList, StepType.print⟩] ∧
      lessonRun.totalSteps = 4 ∧
      Lvl3.stepSucceeds lessonPython (Lvl3.afterSteps lessonPython 0 lessonRun) = true ∧
      Lvl3.stepSucceeds lessonPython (Lvl3.afterSteps lessonPython 1 lessonRun) = true ∧
      Lvl3.stepSucceeds lessonPython (Lvl3.afterSteps lessonPython 2 lessonRun) = true ∧
      Lvl3.stepSucceeds lessonPython (Lvl3.afterSteps lessonPython 3 lessonRun) = true ∧
      lessonDone.currentStep = 4 ∧
      lessonDone.currentVariables =
        [("length".toList, "10".toList), ("breadth".toList, "20".toList),
         ("area".toList, "200".toList)] ∧
      lessonDone.pyodide.map Interp.stdout = some (some "200\n".toList) ∧
      lessonDone.outputLines.map OutputLine.text = ["200".toList] := by
  decide

/-- C22, the code at the failing input: after a completed run of the lesson, a second run whose
print is `print()` reads back the text `200`, line feed, line feed: the first line is the
output of the earlier run, and the output line the print step emits is `200` although the
current run has printed an empty line only. -/
theorem buffer_keeps_earlier_output :
    lessonDone.pyodide.map Interp.stdout = some (some "200\n".toList) ∧
      secondRunPrint.currentStep = 4 ∧ secondRunPrint.isRunning = false ∧
      secondRunPrint.pyodide.map Interp.stdout = some (some ("200\n".toList ++ [LF])) ∧
      secondRunPrint.outputLines.map OutputLine.text = ["200".toList] := by
  decide

/-- C23, the code at the failing input: after a completed run of the lesson, Run on the source
whose first line is `width = 10` and one Step leave `length`, `breadth` and `area` in the
Variable Store, although the only line executed in the current run binds `width`. -/
theorem store_keeps_earlier_names :
    Lvl3.Reachable sessionPython secondRunStore ∧ secondRunStore.currentStep = 1 ∧
      secondRunStore.isRunning = true ∧
      secondRunStore.executionPlan[0]? = some ⟨0, "width = 10".toList, StepType.assignment⟩ ∧
      secondRunStore.currentVariables =
        [("length".toList, "10".toList), ("breadth".toList, "20".toList),
         ("area".toList, "200".toList), ("width".toList, "10".toList)] :=
  ⟨⟨true, false, false, false, _, rfl⟩, by decide, by decide, by decide, by decide⟩

/-- C27, the code at the failing input: on a source whose first two lines both assign `length`,
the second Step finds the box of `length` already in the memory bank and still pushes an entry
with `isNew = true`; the following Back removes that box, leaving the bank empty with
`currentStep = 1`. -/
theorem reassignment_recorded_as_new :
    (Lvl3.stepBtnOnclick acceptAll
        (Lvl3.runBtnOnclick acceptAll reassignSource (freshPage acceptAll))).memoryBank =
        [⟨0, "length".toList⟩] ∧
      reassigned.memoryBank = [⟨0, "length".toList⟩] ∧
      reassigned.animationHistory =
        [⟨EntryType.memory, 0, true⟩, ⟨EntryType.memory, 0, true⟩] ∧
      (Lvl3.backBtnOnclick reassigned).currentStep = 1 ∧
      (Lvl3.backBtnOnclick reassigned).memoryBank = [] := by
  decide


/-! ## The copies of the print-argument scanner agree -/

theorem scanCharGuarded_eq (vars : Store) (st : Scan) (char : Char) :
    scanCharGuarded vars st char = scanChar vars st char := by
  unfold scanCharGuarded scanChar
  by_cases h1 : (char = DQ ∨ char = SQ) ∧ st.inQuote = false
  · rw [if_pos h1, if_pos h1]
  · rw [if_neg h1, if_neg h1]
    by_cases h2 : st.quoteChar = some char ∧ st.inQuote = true
    · rw [if_pos h2, if_pos h2]
    · rw [if_neg h2, if_neg h2]
      by_cases h3 : char = ',' ∧ st.inQuote = false
      · rw [if_pos h3, if_pos h3]
        by_cases h4 : truthy (trim st.current) = true
        · rw [if_pos ⟨h4, h3.2⟩, if_pos h4]
        · rw [if_neg (fun h => h4 h.1), if_neg h4]
      · rw [if_neg h3, if_neg h3]

/-- C28: the copies of `parsePrintContent` in lvl2, lvl4 and lvl5 return, for every argument
text and every Variable Store, the same list of parts as the copy in lvl3: same types, values,
variable names and sources, in the same order. -/
theorem parsePrintContent_copies_agree (vars : Store) (content : Str) :
    Lvl2.parsePrintContent vars content = parsePrintContent vars content ∧
      Lvl4.parsePrintContent vars content = parsePrintContent vars content ∧
      Lvl5.parsePrintContent vars content = parsePrintContent vars content := by
  have hfun : scanCharGuarded vars = scanChar vars := by
    funext st char
    exact scanCharGuarded_eq vars st char
  refine ⟨?_, ?_, ?_⟩
  · unfold Lvl2.parsePrintContent parsePrintContent scanLoop
    rw [hfun]
  · unfold Lvl4.parsePrintContent parsePrintContent scanLoop
    rw [hfun]
  · unfold Lvl5.parsePrintContent parsePrintContent scanLoop
    rw [hfun]


/-! ## Chat endpoint -/

/-- The message built from an entry that has a first part. -/
theorem pushHistory_ok (items : List ChatItem) (h : ∀ item ∈ items, item.parts ≠ []) :
    ∀ messages, pushHistory messages items =
      Except.ok (messages ++ items.map (fun item =>
        { role := if item.role = "model".toList then "assistant".toList else "user".toList
          content := item.parts.headD [] })) := by
  induction items with
  | nil => intro messages; simp [pushHistory]
  | cons item rest ih =>
    intro messages
    have hne := h item (List.mem_cons_self _ _)
    cases hp : item.parts with
    | nil => exact absurd hp hne
    | cons text more =>
      simp only [pushHistory, toMessage, hp]
      rw [ih (fun i hi => h i (List.mem_cons_of_mem _ hi))]
      simp [hp]

theorem sliceLast_spec {α : Type} (n : Nat) (xs : List α) :
    (∃ earlier, xs = earlier ++ sliceLast n xs) ∧ (sliceLast n xs).length = min xs.length n := by
  unfold sliceLast
  refine ⟨⟨xs.take (xs.length - n), (List.take_append_drop _ _).symm⟩, ?_⟩
  rw [List.length_drop]
  omega

/-- C24, counterexample: for the history of one entry with role `model` and no part, reading
the text of the first part throws; the handler goes to its `catch` block and no message list is
sent upstream, so none of length `min 1 4 + 2 = 3` is. -/
theorem chat_entry_without_part_throws :
    sliceLast 4 [(⟨"model".toList, []⟩ : ChatItem)] = [⟨"model".toList, []⟩] ∧
      chatMessages "why?".toList "x = 1".toList [] [⟨"model".toList, []⟩] =
        Except.error "TypeError: Cannot read properties of undefined".toList ∧
      ∀ messages, chatMessages "why?".toList "x = 1".toList [] [⟨"model".toList, []⟩] ≠
        Except.ok messages := by
  refine ⟨rfl, rfl, ?_⟩
  intro messages h
  have herr : chatMessages "why?".toList "x = 1".toList [] [⟨"model".toList, []⟩] =
      Except.error "TypeError: Cannot read properties of undefined".toList := rfl
  rw [herr] at h
  cases h

/-- C24, amended: for every history list whose last four entries each have a first part, the
message list the chat endpoint sends upstream is one system message, then the last 4 entries of the
history (all of it when shorter) in their original order, each with role `assistant` when the
entry's role is `model` and `user` otherwise and with the text of the entry's first part as
content, then the query as a final user message; its length is `min |history| 4 + 2`. -/
theorem chat_messages_window (query code output : Str) (history : List ChatItem)
    (hparts : ∀ item ∈ sliceLast 4 history, item.parts ≠ []) :
    chatMessages query code output history =
        Except.ok ([{ role := "system".toList, content := systemPrompt code output }] ++
          (sliceLast 4 history).map (fun item =>
            { role := if item.role = "model".toList then "assistant".toList else "user".toList
              content := item.parts.headD [] }) ++
          [{ role := "user".toList, content := query }]) ∧
      (∃ earlier, history = earlier ++ sliceLast 4 history) ∧
      (sliceLast 4 history).length = min history.length 4 ∧
      ∀ messages, chatMessages query code output history = Except.ok messages →
        messages.length = min history.length 4 + 2 := by
  have hmsg : chatMessages query code output history =
      Except.ok ([{ role := "system".toList, content := systemPrompt code output }] ++
        (sliceLast 4 history).map (fun item =>
          { role := if item.role = "model".toList then "assistant".toList else "user".toList
            content := item.parts.headD [] }) ++
        [{ role := "user".toList, content := query }]) := by
    unfold chatMessages
    rw [pushHistory_ok _ hparts]
  refine ⟨hmsg, (sliceLast_spec 4 history).1, (sliceLast_spec 4 history).2, ?_⟩
  intro messages hm
  rw [hmsg] at hm
  injection hm with hm
  rw [← hm]
  simp only [List.length_append, List.length_map, List.length_singleton,
    (sliceLast_spec 4 history).2]
  omega

/-- Witness of C24: a history of three exchanges; the first exchange is left out. -/
theorem chat_messages_window_witness :
    chatMessages "why?".toList "x = 1".toList [] sampleHistory =
      Except.ok [⟨"system".toList, systemPrompt "x = 1".toList []⟩,
        ⟨"user".toList, "q2".toList⟩, ⟨"assistant".toList, "a2".toList⟩,
        ⟨"user".toList, "q3".toList⟩, ⟨"assistant".toList, "a3".toList⟩,
        ⟨"user".toList, "why?".toList⟩] :=
  (chat_messages_window "why?".toList "x = 1".toList [] sampleHistory (by decide)).1.trans rfl

/-! ## Editor restrictions -/

/-- When no inserted line holds a line break, the handler cancels no paste and no drop. -/
theorem Lvl3.beforeChange_paste (change : Change)
    (horigin : change.origin = "paste".toList ∨ change.origin = "drop".toList)
    (hlines : ∀ line ∈ change.text, LF ∉ line) : Lvl3.beforeChange change = false := by
  have hno : includes change.text.flatten [LF] = false := by
    rw [Bool.eq_false_iff]
    intro h
    rw [includes_singleton_iff, List.mem_flatten] at h
    obtain ⟨line, hline, hmem⟩ := h
    exact hlines line hline hmem
  unfold Lvl3.beforeChange
  rcases horigin with h | h <;> simp [h, hno]

/-- C25, the code at the failing input: a paste of the two lines `a` and `b` is not cancelled
(the handler joins the lines without a separator before looking for a line break), while a
typed change of two lines and a delete from line 0 to line 1 are cancelled. -/
theorem multiline_paste_not_cancelled :
    Lvl3.beforeChange ⟨"paste".toList, ["a".toList, "b".toList], 0, 0⟩ = false ∧
      Lvl3.beforeChange ⟨"drop".toList, ["a".toList, "b".toList], 0, 0⟩ = false ∧
      Lvl3.beforeChange ⟨"+input".toList, ["a".toList, "b".toList], 0, 0⟩ = true ∧
      Lvl3.beforeChange ⟨"+delete".toList, [[]], 0, 1⟩ = true ∧
      Lvl3.beforeChange ⟨"cut".toList, [[]], 0, 1⟩ = true := by
  decide


/-! ## Input steps of lvl4 -/

/-- C29, the code at the failing input: the line `name = int(input("Enter your age: "))`
contains `input(`, so the lvl4 classifier marks it as an input step; the pattern of
`handleInputStatement` does not match it, so the Step asks for no value, binds nothing in the
interpreter or in the Variable Store, and still completes and increments `currentStep`.  On
the lesson line itself the same Step binds `name` in both. -/
theorem input_step_counted_without_effect :
    Lvl4.stepType intInputLine = StepType.input ∧
      intInputRun.executionPlan[0]? = some ⟨0, intInputLine, StepType.input⟩ ∧
      Lvl4.matchInput intInputLine = none ∧
      Lvl4.promptText intInputLine = none ∧
      (Lvl4.stepBtnOnclick acceptAll "7".toList intInputRun).currentStep = 1 ∧
      (Lvl4.stepBtnOnclick acceptAll "7".toList intInputRun).stepBtnDisabled = false ∧
      (Lvl4.stepBtnOnclick acceptAll "7".toList intInputRun).currentVariables = [] ∧
      (Lvl4.stepBtnOnclick acceptAll "7".toList intInputRun).pyodide = some bootInterp ∧
      (Lvl4.stepBtnOnclick acceptAll "Ann".toList inputLessonRun).currentStep = 1 ∧
      (Lvl4.stepBtnOnclick acceptAll "Ann".toList inputLessonRun).currentVariables =
        [("name".toList, "Ann".toList)] ∧
      (Lvl4.stepBtnOnclick acceptAll "Ann".toList inputLessonRun).pyodide.map
          (fun interp => interp.globals.lookup "name".toList) = some (some "Ann".toList) := by
  decide

/-- C30, the code at the failing input: for the lesson line `name = input("Enter your name: ")`
the prompt passed to the interactive input is `Enter your name: ` followed by the closing double
quote, and likewise with single quotes; for `v = input()` it is the default `Enter value:`. -/
theorem prompt_keeps_closing_quote :
    Lvl4.promptText ("name = input(".toList ++ [DQ] ++ "Enter your name: ".toList ++ [DQ] ++
        ")".toList) = some ("Enter your name: ".toList ++ [DQ]) ∧
      Lvl4.promptText ("name = input(".toList ++ [SQ] ++ "Enter your name: ".toList ++ [SQ] ++
        ")".toList) = some ("Enter your name: ".toList ++ [SQ]) ∧
      Lvl4.promptText "v = input()".toList = some "Enter value:".toList := by
  decide


/-! ## Steps in flight -/

/-- A Step that ends before anything else happens is the atomic Step. -/
theorem Lvl3.stepEnd_stepBegin (E : Executor) (s : Lvl3.State) :
    Lvl3.stepEnd (Lvl3.stepBegin E ⟨s, []⟩) = ⟨Lvl3.clickStep E s, []⟩ := by
  by_cases hd : s.stepBtnDisabled = true
  · simp [Lvl3.stepBegin, Lvl3.clickStep, Lvl3.stepEnd, hd]
  by_cases hge : s.currentStep ≥ s.totalSteps
  · simp [Lvl3.stepBegin, Lvl3.clickStep, Lvl3.stepBtnOnclick, Lvl3.stepEnd, hd, hge]
  by_cases hneg : s.currentStep < 0
  · simp [Lvl3.stepBegin, Lvl3.clickStep, Lvl3.stepBtnOnclick, Lvl3.stepEnd, hd, hge, hneg]
  cases hstep : s.executionPlan[s.currentStep.toNat]? with
  | none =>
    simp [Lvl3.stepBegin, Lvl3.clickStep, Lvl3.stepBtnOnclick, Lvl3.stepEnd, hd, hge, hneg, hstep]
  | some step =>
    cases hpy : s.pyodide with
    | none =>
      simp [Lvl3.stepBegin, Lvl3.clickStep, Lvl3.stepBtnOnclick, Lvl3.stepEnd, hd, hge, hneg,
        hstep, hpy]
    | some interp =>
      rcases hr : E.runPython step.code interp with ⟨i2, e⟩
      cases e with
      | some msg =>
        simp [Lvl3.stepBegin, Lvl3.clickStep, Lvl3.stepBtnOnclick, Lvl3.stepEnd, hd, hge, hneg,
          hstep, hpy, hr]
      | none =>
        cases hout : i2.stdout with
        | none =>
          simp [Lvl3.stepBegin, Lvl3.clickStep, Lvl3.stepBtnOnclick, Lvl3.stepEnd, hd, hge,
            hneg, hstep, hpy, hr, hout]
        | some output =>
          simp [Lvl3.stepBegin, Lvl3.clickStep, Lvl3.stepBtnOnclick, Lvl3.stepEnd, hd, hge,
            hneg, hstep, hpy, hr, hout]

/-- The page of a user who waits for each Step to end goes through the states of the atomic
clicks, with nothing left in flight. -/
theorem Lvl3.pageEvents_sequential (E : Executor) (init : Lvl3.State) (cmds : List Lvl3.Command) :
    ∀ s, Lvl3.pageEvents E init ⟨s, []⟩ (cmds.flatMap Lvl3.sequential) =
      ⟨Lvl3.clicks E init s cmds, []⟩ := by
  induction cmds with
  | nil => intro s; rfl
  | cons c rest ih =>
    intro s
    have hstep : Lvl3.pageEvents E init ⟨s, []⟩ (Lvl3.sequential c) =
        ⟨Lvl3.click E init s c, []⟩ := by
      cases c with
      | run code => rfl
      | step =>
        show Lvl3.stepEnd (Lvl3.stepBegin E ⟨s, []⟩) = _
        exact Lvl3.stepEnd_stepBegin E s
      | back => rfl
      | reset => rfl
    unfold Lvl3.pageEvents at *
    rw [List.flatMap_cons, List.foldl_append, hstep]
    exact ih _

/-- A click either does nothing or runs the handler of its command. -/
theorem Lvl3.click_cases (E : Executor) (init s : Lvl3.State) (c : Lvl3.Command) :
    Lvl3.click E init s c = s ∨ Lvl3.click E init s c = Lvl3.handle E init s c := by
  cases c with
  | run code =>
    by_cases hd : s.runBtnDisabled = true
    · left; simp [Lvl3.click, Lvl3.clickRun, hd]
    · right; simp [Lvl3.click, Lvl3.clickRun, Lvl3.handle, hd]
  | step =>
    by_cases hd : s.stepBtnDisabled = true
    · left; simp [Lvl3.click, Lvl3.clickStep, hd]
    · right; simp [Lvl3.click, Lvl3.clickStep, Lvl3.handle, hd]
  | back =>
    by_cases hd : s.backBtnDisabled = true
    · left; simp [Lvl3.click, Lvl3.clickBack, hd]
    · right; simp [Lvl3.click, Lvl3.clickBack, Lvl3.handle, hd]
  | reset => right; rfl

/-- The bounds on `currentStep` are kept by every handler. -/
theorem Lvl3.handle_range (E : Executor) (init s : Lvl3.State) (c : Lvl3.Command)
    (hinit : 0 ≤ init.currentStep ∧ init.currentStep ≤ init.totalSteps)
    (hs : 0 ≤ s.currentStep ∧ s.currentStep ≤ s.totalSteps) :
    0 ≤ (Lvl3.handle E init s c).currentStep ∧
      (Lvl3.handle E init s c).currentStep ≤ (Lvl3.handle E init s c).totalSteps := by
  cases c with
  | run code =>
    show 0 ≤ (Lvl3.runBtnOnclick E code s).currentStep ∧
      (Lvl3.runBtnOnclick E code s).currentStep ≤ (Lvl3.runBtnOnclick E code s).totalSteps
    rcases Lvl3.runBtnOnclick_cases E code s with h | ⟨h1, _, h3 | h3⟩
    · rw [h]; exact hs
    · rw [h1, h3]; exact ⟨le_refl _, by omega⟩
    · rw [h1, h3]; exact ⟨le_refl _, by omega⟩
  | step =>
    show 0 ≤ (Lvl3.stepBtnOnclick E s).currentStep ∧
      (Lvl3.stepBtnOnclick E s).currentStep ≤ (Lvl3.stepBtnOnclick E s).totalSteps
    obtain ⟨ht, _, h | h⟩ := Lvl3.stepBtnOnclick_cases E s
    · rw [h.1, ht]; exact hs
    · rw [h.1, ht]; omega
  | back =>
    show 0 ≤ (Lvl3.backBtnOnclick s).currentStep ∧
      (Lvl3.backBtnOnclick s).currentStep ≤ (Lvl3.backBtnOnclick s).totalSteps
    by_cases hpos : 0 < s.currentStep
    · have hf := Lvl3.backBtnOnclick_frame s hpos
      rw [hf.1, hf.2.2.2.2.1]; omega
    · rw [Lvl3.backBtnOnclick_nonpos s (not_lt.mp hpos)]; exact hs
  | reset => exact hinit

/-- The bounds on `currentStep` are kept by every sequence of clicks. -/
theorem Lvl3.clicks_range (E : Executor) (init : Lvl3.State)
    (hinit : 0 ≤ init.currentStep ∧ init.currentStep ≤ init.totalSteps)
    (cmds : List Lvl3.Command) :
    ∀ s, (0 ≤ s.currentStep ∧ s.currentStep ≤ s.totalSteps) →
      0 ≤ (Lvl3.clicks E init s cmds).currentStep ∧
        (Lvl3.clicks E init s cmds).currentStep ≤ (Lvl3.clicks E init s cmds).totalSteps := by
  induction cmds with
  | nil => intro s hs; exact hs
  | cons c rest ih =>
    intro s hs
    apply ih
    rcases Lvl3.click_cases E init s c with h | h
    · rw [h]; exact hs
    · rw [h]; exact Lvl3.handle_range E init s c hinit hs

/-- C26, the code at the failing input: with one step of the lesson left (`currentStep = 3`,
`totalSteps = 4`), a click on Step begins a Step and leaves the Step and Back controls enabled;
a second click before the first Step has ended is accepted and runs `executionPlan[3]` again
(the interpreter has run four texts before the two clicks and six after them); after both Steps
end `currentStep` is 5, above `totalSteps`. -/
theorem step_accepted_while_in_flight :
    lastStepPage.state.currentStep = 3 ∧ lastStepPage.state.totalSteps = 4 ∧
      lastStepPage.inFlight = [] ∧
      lastStepPage.state.pyodide.map Interp.hidden = some 4 ∧
      (Lvl3.stepBegin countingPython lastStepPage).state.stepBtnDisabled = false ∧
      (Lvl3.stepBegin countingPython lastStepPage).state.backBtnDisabled = false ∧
      (Lvl3.stepBegin countingPython lastStepPage).inFlight.map (fun f => f.step.lineNumber) =
        [3] ∧
      (Lvl3.stepBegin countingPython
        (Lvl3.stepBegin countingPython lastStepPage)).inFlight.map
          (fun f => f.step.lineNumber) = [3, 3] ∧
      doubleClickPage.state.pyodide.map Interp.hidden = some 6 ∧
      doubleClickPage.state.currentStep = 5 ∧
      doubleClickPage.state.totalSteps < doubleClickPage.state.currentStep := by
  decide

/-- When the user waits for each Step to end before the next command, the page goes through the
states of the atomic commands with nothing left in flight, a Step being the single atomic Step
(one plan step executed for one advance of `currentStep`), and `currentStep` never exceeds
`totalSteps`. -/
theorem sequential_steps_are_atomic (E : Executor) (loaded runDisabled stepDisabled
    backDisabled : Bool) (cmds : List Lvl3.Command) :
    Lvl3.pageEvents E (Lvl3.State.initial E loaded runDisabled stepDisabled backDisabled)
        ⟨Lvl3.State.initial E loaded runDisabled stepDisabled backDisabled, []⟩
        (cmds.flatMap Lvl3.sequential) =
      ⟨Lvl3.clicks E (Lvl3.State.initial E loaded runDisabled stepDisabled backDisabled)
        (Lvl3.State.initial E loaded runDisabled stepDisabled backDisabled) cmds, []⟩ ∧
      (∀ s, Lvl3.stepEnd (Lvl3.stepBegin E ⟨s, []⟩) = ⟨Lvl3.clickStep E s, []⟩) ∧
      0 ≤ (Lvl3.pageEvents E (Lvl3.State.initial E loaded runDisabled stepDisabled backDisabled)
        ⟨Lvl3.State.initial E loaded runDisabled stepDisabled backDisabled, []⟩
        (cmds.flatMap Lvl3.sequential)).state.currentStep ∧
      (Lvl3.pageEvents E (Lvl3.State.initial E loaded runDisabled stepDisabled backDisabled)
        ⟨Lvl3.State.initial E loaded runDisabled stepDisabled backDisabled, []⟩
        (cmds.flatMap Lvl3.sequential)).state.currentStep ≤
      (Lvl3.pageEvents E (Lvl3.State.initial E loaded runDisabled stepDisabled backDisabled)
        ⟨Lvl3.State.initial E loaded runDisabled stepDisabled backDisabled, []⟩
        (cmds.flatMap Lvl3.sequential)).state.totalSteps := by
  have hseq := Lvl3.pageEvents_sequential E
    (Lvl3.State.initial E loaded runDisabled stepDisabled backDisabled) cmds
    (Lvl3.State.initial E loaded runDisabled stepDisabled backDisabled)
  have hinit : 0 ≤ (Lvl3.State.initial E loaded runDisabled stepDisabled backDisabled).currentStep ∧
      (Lvl3.State.initial E loaded runDisabled stepDisabled backDisabled).currentStep ≤
        (Lvl3.State.initial E loaded runDisabled stepDisabled backDisabled).totalSteps := by
    simp [Lvl3.State.initial]
  have hrange := Lvl3.clicks_range E _ hinit cmds _ hinit
  refine ⟨hseq, Lvl3.stepEnd_stepBegin E, ?_, ?_⟩
  · rw [hseq]; exact hrange.1
  · rw [hseq]; exact hrange.2

end VisualPython
